import Mathlib

/-!
# yolo_ros_vino: the decode-and-filter core of `src/yolo_ros_vino.cpp`

A shallow embedding of the numerical core of the node:

* `EntryIndex`               (lines 111-115)
* `IntersectionOverUnion`    (lines 118-130)
* `ParseYOLOV3Output`        (lines 133-224)
* the tail of `callback`     (lines 291-315): `std::sort`, the suppression loop, publishing.

Modelling conventions.

* C++ `int` is a mathematical integer reduced to 32 bits after every operation (`wrap32`).
* A `float` value (a tensor entry, a confidence) is a `Flt`: NaN, an infinity, or a finite
  value kept as a rational.  The `float` product of line 214 is `Flt.mul`, rounded to the
  nearest `float` by `roundF32`; the tests of lines 206 and 215 and the stored confidence
  follow the code, NaN included.  Signed zeros are not distinguished.
* The `double` arithmetic of `IntersectionOverUnion` is exact on rationals; its final
  division, the only place where it can produce a non-finite value, returns a `Dbl`.
* The box arithmetic of lines 208-211 and of the constructor (lines 84-87) is done on exact
  rationals, on the finite value of the tensor entries (`Flt.toRat`), without rounding; no
  statement about the decoder below depends on the corners it produces.
* `std::exp` is a parameter of the decoder.
* Reads through the raw tensor pointer are reads of a total function `Int → Flt`.
* `std::sort` is specified by its postcondition (`IsStdSort`): the theorems about the filter
  hold for every sorted permutation, and `sortObjects` is one such outcome (on confidences
  without NaN, where `operator<` is a strict weak ordering), used to evaluate the filter on
  concrete vectors.
-/

namespace YoloRosVino

/-! ## Machine integers -/

/-- Two's-complement reduction of an integer to the range of a 32-bit `int`. -/
def wrap32 (x : Int) : Int := (x + 2147483648) % 4294967296 - 2147483648

/-- The value is representable as a 32-bit `int`. -/
def inInt (x : Int) : Prop := -2147483648 ≤ x ∧ x < 2147483648

instance (x : Int) : Decidable (inInt x) := by unfold inInt; infer_instance

/-- Addition of two `int` values. -/
def iadd (a b : Int) : Int := wrap32 (a + b)

/-- Subtraction of two `int` values. -/
def isub (a b : Int) : Int := wrap32 (a - b)

/-- Multiplication of two `int` values. -/
def imul (a b : Int) : Int := wrap32 (a * b)

/-- Division of two `int` values: C++ `/` truncates toward zero. -/
def idiv (a b : Int) : Int := wrap32 (Int.tdiv a b)

/-- Remainder of two `int` values: C++ `%` has the sign of the dividend. -/
def imod (a b : Int) : Int := wrap32 (Int.tmod a b)

/-! ## Floating-point results of a division -/

/-- Result of a `double` division: a finite value (kept exact), an infinity, or NaN. -/
inductive Dbl where
  | nan : Dbl
  | posInf : Dbl
  | negInf : Dbl
  | fin (q : ℚ) : Dbl
deriving DecidableEq

/-- IEEE division of two finite values; a zero divisor is the positive zero, which is the
only zero the callers below can produce. -/
def Dbl.div (a b : ℚ) : Dbl :=
  if b = 0 then
    if a = 0 then Dbl.nan else if 0 < a then Dbl.posInf else Dbl.negInf
  else Dbl.fin (a / b)

/-- The comparison `v >= t` for a finite `t`; every comparison with NaN is false. -/
def Dbl.ge (v : Dbl) (t : ℚ) : Prop :=
  match v with
  | Dbl.nan => False
  | Dbl.posInf => True
  | Dbl.negInf => False
  | Dbl.fin q => t ≤ q

instance (v : Dbl) (t : ℚ) : Decidable (Dbl.ge v t) := by
  cases v <;> unfold Dbl.ge <;> infer_instance

/-- The comparison `v < t` for a finite `t`; every comparison with NaN is false. -/
def Dbl.lt (v : Dbl) (t : ℚ) : Prop :=
  match v with
  | Dbl.nan => False
  | Dbl.posInf => False
  | Dbl.negInf => True
  | Dbl.fin q => q < t

instance (v : Dbl) (t : ℚ) : Decidable (Dbl.lt v t) := by
  cases v <;> unfold Dbl.lt <;> infer_instance

/-! ## Values of type `float` -/

/-- Value of a `float`: NaN, an infinity, or a finite value (kept as a rational). -/
inductive Flt where
  | nan : Flt
  | posInf : Flt
  | negInf : Flt
  | fin (q : ℚ) : Flt
deriving DecidableEq

instance : Zero Flt := ⟨Flt.fin 0⟩

/-- The comparison `v < t` of a `float` with a finite threshold `t`; false for NaN. -/
def Flt.lt (v : Flt) (t : ℚ) : Prop :=
  match v with
  | Flt.nan => False
  | Flt.posInf => False
  | Flt.negInf => True
  | Flt.fin q => q < t

instance (v : Flt) (t : ℚ) : Decidable (Flt.lt v t) := by
  cases v <;> unfold Flt.lt <;> infer_instance

/-- The comparison `a < b` of two `float` values; false when either is NaN. -/
def Flt.less (a b : Flt) : Prop :=
  match a, b with
  | Flt.nan, _ => False
  | _, Flt.nan => False
  | Flt.posInf, _ => False
  | _, Flt.negInf => False
  | Flt.negInf, _ => True
  | Flt.fin _, Flt.posInf => True
  | Flt.fin p, Flt.fin q => p < q

instance (a b : Flt) : Decidable (Flt.less a b) := by
  cases a <;> cases b <;> unfold Flt.less <;> infer_instance

/-- Rounding of a non-negative rational to the nearest integer, ties to even. -/
def roundHalfEven (m : ℚ) : Int :=
  let f := ⌊m⌋
  let r := m - (f : ℚ)
  if r < 1 / 2 then f else if 1 / 2 < r then f + 1 else if f % 2 = 0 then f else f + 1

/-- Number of binary digits of `n`, with `fuel` at least that number. -/
def bitLengthAux : Nat → Nat → Nat
  | 0, _ => 0
  | fuel + 1, n => if n = 0 then 0 else bitLengthAux fuel (n / 2) + 1

/-- Number of binary digits of `n`. -/
def bitLength (n : Nat) : Nat := bitLengthAux n n

/-- The integer `e` with `2 ^ e ≤ a < 2 ^ (e + 1)`, for a positive rational `a`. -/
def floorLog2 (a : ℚ) : Int :=
  let e0 : Int := (bitLength a.num.natAbs : Int) - (bitLength a.den : Int)
  if (2 : ℚ) ^ e0 ≤ a then e0 else e0 - 1

/-- Rounding of a real result to `float` (IEEE binary32, round to nearest, ties to even):
24 significant bits, least exponent -126 with gradual underflow, overflow to an infinity. -/
def roundF32 (q : ℚ) : Flt :=
  if q = 0 then Flt.fin 0
  else
    let a := |q|
    let e := max (floorLog2 a) (-126)
    let ulp : ℚ := (2 : ℚ) ^ (e - 23)
    let r : ℚ := (roundHalfEven (a / ulp) : ℚ) * ulp
    if (2 : ℚ) ^ (128 : Int) ≤ r then (if 0 < q then Flt.posInf else Flt.negInf)
    else Flt.fin (if 0 < q then r else -r)

/-- Sign of a `float` value: 1, -1, or 0 for a zero (and for NaN). -/
def Flt.sign (a : Flt) : Int :=
  match a with
  | Flt.nan => 0
  | Flt.posInf => 1
  | Flt.negInf => -1
  | Flt.fin q => if 0 < q then 1 else if q < 0 then -1 else 0

/-- The `float` product `a * b`: NaN if either factor is NaN or if an infinity meets a zero,
an infinity of the product sign if a factor is infinite, else the rounded exact product. -/
def Flt.mul (a b : Flt) : Flt :=
  match a, b with
  | Flt.nan, _ => Flt.nan
  | _, Flt.nan => Flt.nan
  | Flt.fin p, Flt.fin q => roundF32 (p * q)
  | a, b =>
    if Flt.sign a * Flt.sign b = 0 then Flt.nan
    else if 0 < Flt.sign a * Flt.sign b then Flt.posInf
    else Flt.negInf

/-- The finite value of a `float`, used by the box arithmetic (0 for NaN and infinities, on
which the conversion of the corners to `int` is not defined in C++). -/
def Flt.toRat (a : Flt) : ℚ :=
  match a with
  | Flt.fin q => q
  | _ => 0

/-! ## Data model -/

/-- The record `YoloRosVino::DetectionObject`. -/
structure DetectionObject where
  xmin : Int
  ymin : Int
  xmax : Int
  ymax : Int
  class_id : Int
  Class : String
  confidence : Flt
deriving DecidableEq

/-- The message `yolo_ros_vino::BoundingBox`. -/
structure BoundingBox where
  Class : String
  probability : Flt
  xmin : Int
  ymin : Int
  xmax : Int
  ymax : Int
deriving DecidableEq

/-- Conversion `static_cast<int>` of a floating-point value: truncation toward zero.
(For a value outside the `int` range the C++ conversion is undefined; the model keeps the
truncated value.) -/
def castInt (q : ℚ) : Int := Int.tdiv q.num q.den

/-- The constructor `DetectionObject::DetectionObject` (lines 83-91). -/
def DetectionObject.new (x y h w : ℚ) (class_id : Int) (Class : String)
    (confidence : Flt) (h_scale w_scale : ℚ) : DetectionObject :=
  let xmin := castInt ((x - w / 2) * w_scale)
  let ymin := castInt ((y - h / 2) * h_scale)
  { xmin := xmin
    ymin := ymin
    xmax := castInt ((xmin : ℚ) + w * w_scale)
    ymax := castInt ((ymin : ℚ) + h * h_scale)
    class_id := class_id
    Class := Class
    confidence := confidence }

/-- The method `DetectionObject::BoundingBox` (lines 94-103). -/
def DetectionObject.BoundingBox (self : DetectionObject) : BoundingBox :=
  { Class := self.Class
    probability := self.confidence
    xmin := self.xmin
    ymin := self.ymin
    xmax := self.xmax
    ymax := self.ymax }

/-- The comparison `DetectionObject::operator<` (lines 106-108). -/
def DetectionObject.lt (self s2 : DetectionObject) : Prop :=
  Flt.less self.confidence s2.confidence

instance (a b : DetectionObject) : Decidable (DetectionObject.lt a b) := by
  unfold DetectionObject.lt; infer_instance

/-! ## Grid index -/

/-- The function `EntryIndex` (lines 111-115), every operation on 32-bit `int`. -/
def EntryIndex (side lcoords lclasses location entry : Int) : Int :=
  let n := idiv location (imul side side)
  let loc := imod location (imul side side)
  iadd (iadd (imul (imul (imul n side) side) (iadd (iadd lcoords lclasses) 1))
    (imul (imul entry side) side)) loc

/-- No operation of `EntryIndex` overflows on these arguments: the arguments and the exact
value of every intermediate result are representable as `int`. -/
def EntryIndexNoOverflow (side lcoords lclasses location entry : Int) : Prop :=
  inInt side ∧ inInt lcoords ∧ inInt lclasses ∧ inInt location ∧ inInt entry ∧
  inInt (side * side) ∧
  inInt (Int.tdiv location (side * side)) ∧
  inInt (Int.tmod location (side * side)) ∧
  inInt (Int.tdiv location (side * side) * side) ∧
  inInt (Int.tdiv location (side * side) * side * side) ∧
  inInt (lcoords + lclasses) ∧
  inInt (lcoords + lclasses + 1) ∧
  inInt (Int.tdiv location (side * side) * side * side * (lcoords + lclasses + 1)) ∧
  inInt (entry * side) ∧
  inInt (entry * side * side) ∧
  inInt (Int.tdiv location (side * side) * side * side * (lcoords + lclasses + 1)
    + entry * side * side) ∧
  inInt (Int.tdiv location (side * side) * side * side * (lcoords + lclasses + 1)
    + entry * side * side + Int.tmod location (side * side))

instance (side lcoords lclasses location entry : Int) :
    Decidable (EntryIndexNoOverflow side lcoords lclasses location entry) := by
  unfold EntryIndexNoOverflow; infer_instance

/-! ## Intersection over union -/

/-- The `int` product `(ymax - ymin) * (xmax - xmin)` of lines 126-127, before its conversion
to `double`. -/
def boxArea (box : DetectionObject) : Int :=
  imul (isub box.ymax box.ymin) (isub box.xmax box.xmin)

/-- The function `IntersectionOverUnion` (lines 118-130).  The overlap is computed in `double`
from the corners; the two box areas are `int` products converted to `double` afterwards. -/
def IntersectionOverUnion (box_1 box_2 : DetectionObject) : Dbl :=
  let width_of_overlap_area : ℚ :=
    min (box_1.xmax : ℚ) (box_2.xmax : ℚ) - max (box_1.xmin : ℚ) (box_2.xmin : ℚ)
  let height_of_overlap_area : ℚ :=
    min (box_1.ymax : ℚ) (box_2.ymax : ℚ) - max (box_1.ymin : ℚ) (box_2.ymin : ℚ)
  let area_of_overlap : ℚ :=
    if width_of_overlap_area < 0 ∨ height_of_overlap_area < 0 then 0
    else width_of_overlap_area * height_of_overlap_area
  let box_1_area : ℚ := (boxArea box_1 : ℚ)
  let box_2_area : ℚ := (boxArea box_2 : ℚ)
  let area_of_union : ℚ := box_1_area + box_2_area - area_of_overlap
  Dbl.div area_of_overlap area_of_union

/-! ## Region decoder -/

/-- The part of a `CNNLayer` that `ParseYOLOV3Output` reads: type and name, the parameters
`num`, `coords` and `classes`, and the optional parameters `mask` and `anchors` (`none` when
`GetParamAsInts` / `GetParamAsFloats` throws, which the code catches). -/
structure CNNLayer where
  type : String
  name : String
  num : Int
  mask : Option (List Int)
  coords : Int
  classes : Int
  anchors : Option (List ℚ)

/-- The part of a `Blob` that `ParseYOLOV3Output` reads: the dimensions `getDims()[2]` and
`getDims()[3]`, and the buffer behind the raw `float` pointer. -/
structure Blob where
  h : Nat
  w : Nat
  buffer : Int → Flt

/-- The anchor list the decoder starts from (line 150). -/
def defaultAnchors : List ℚ :=
  [10, 13, 16, 30, 33, 23, 30, 61, 62, 45, 59, 119, 116, 90, 156, 198, 373, 326]

/-- The anchor count `num` after lines 146-147: the size of the `mask` parameter, converted to
`int`, when the layer has one, else the parameter `num`. -/
def CNNLayer.numAnchors (layer : CNNLayer) : Int :=
  match layer.mask with
  | some m => wrap32 (m.length : Int)
  | none => layer.num

/-- The vector `anchors` after lines 150-151: the parameter `anchors` when the layer has one,
else the built-in list. -/
def CNNLayer.anchorList (layer : CNNLayer) : List ℚ :=
  match layer.anchors with
  | some a => a
  | none => defaultAnchors

/-- The grid size `side` of line 152: `getDims()[2]` converted to `int`. -/
def Blob.side (blob : Blob) : Int := wrap32 (blob.h : Int)

/-- Element access `v[i]` of a `std::vector` with an `int` index.  (An index outside the
vector is undefined in C++; the model yields the default.) -/
def vecAt {α : Type} (v : List α) (i : Int) (d : α) : α :=
  if 0 ≤ i then v.getD i.toNat d else d

/-- The anchor-offset selection of `ParseYOLOV3Output` (lines 153-194): the three `switch`
statements on `side`, chosen by `anchors.size()`. -/
def anchorOffset (anchorsSize : Nat) (side : Int) : Except String Int :=
  if anchorsSize = 18 then
    if side = 13 then Except.ok (imul 2 6)
    else if side = 26 then Except.ok (imul 2 3)
    else if side = 52 then Except.ok (imul 2 0)
    else Except.error "Invalid output size"
  else if anchorsSize = 12 then
    if side = 13 then Except.ok (imul 2 3)
    else if side = 26 then Except.ok (imul 2 0)
    else Except.error "Invalid output size"
  else
    if side = 13 then Except.ok (imul 2 6)
    else if side = 26 then Except.ok (imul 2 3)
    else if side = 52 then Except.ok (imul 2 0)
    else Except.error "Invalid output size"

/-- The value `output_blob[obj_index]` read at line 205 for grid cell `i` and anchor `n`. -/
def objectnessAt (output_blob : Int → Flt) (side coords classes i n : Int) : Flt :=
  output_blob (EntryIndex side coords classes (iadd (imul (imul n side) side) i) coords)

/-- The value `output_blob[class_index]` read at line 214 for grid cell `i`, anchor `n` and
class `j`. -/
def classScoreAt (output_blob : Int → Flt) (side coords classes i n j : Int) : Flt :=
  output_blob (EntryIndex side coords classes (iadd (imul n (imul side side)) i)
    (iadd (iadd coords 1) j))

/-- The lookup table of the specification, keyed by the length of the anchor list: pairs
`(side, anchor_offset)`.  Length 18: 13 -> 12, 26 -> 6, 52 -> 0; length 12: 13 -> 6,
26 -> 0; any other length uses the table of length 18. -/
def specAnchorTable (anchorsSize : Nat) : List (Int × Int) :=
  if anchorsSize = 18 then [(13, 12), (26, 6), (52, 0)]
  else if anchorsSize = 12 then [(13, 6), (26, 0)]
  else [(13, 12), (26, 6), (52, 0)]

/-- The anchor-offset selection as the specification words it: the table entry for `side`,
and the error `Invalid output size` when `side` is not a key of the table. -/
def specAnchorOffset (anchorsSize : Nat) (side : Int) : Except String Int :=
  match (specAnchorTable anchorsSize).lookup side with
  | some anchor_offset => Except.ok anchor_offset
  | none => Except.error "Invalid output size"

/-- The values `0, 1, ..., bound - 1` of a loop `for (int k = 0; k < bound; ++k)`. -/
def loopRange (bound : Int) : List Int :=
  List.map (fun k : Nat => (k : Int)) (List.range bound.toNat)

/-- The innermost loop of `ParseYOLOV3Output` (lines 212-221) for grid cell `i` and anchor
`n`: the detections pushed for the classes `0 .. classes - 1`, in order. -/
def decodeClasses (output_blob : Int → Flt) (labels : List String) (threshold : ℚ)
    (side coords classes side_square i n : Int) (scale : Flt)
    (x y height width h_scale w_scale : ℚ) : List DetectionObject :=
  (loopRange classes).flatMap (fun j =>
    let class_index :=
      EntryIndex side coords classes (iadd (imul n side_square) i) (iadd (iadd coords 1) j)
    let prob := Flt.mul scale (output_blob class_index)
    if Flt.lt prob threshold then []
    else [DetectionObject.new x y height width j (vecAt labels j "") prob h_scale w_scale])

/-- The body of the anchor loop of `ParseYOLOV3Output` (lines 203-221) for grid cell `i` and
anchor `n`. -/
def decodeCellAnchor (exp : ℚ → ℚ) (output_blob : Int → Flt) (anchors : List ℚ)
    (labels : List String) (resized_im_h resized_im_w original_im_h original_im_w : Nat)
    (threshold : ℚ) (side coords classes anchor_offset side_square i n : Int) :
    List DetectionObject :=
  let row := idiv i side
  let col := imod i side
  let obj_index := EntryIndex side coords classes (iadd (imul (imul n side) side) i) coords
  let box_index := EntryIndex side coords classes (iadd (imul (imul n side) side) i) 0
  let scale := output_blob obj_index
  if Flt.lt scale threshold then []
  else
    let x := ((col : ℚ) + Flt.toRat (output_blob (iadd box_index (imul 0 side_square))))
      / (side : ℚ) * (resized_im_w : ℚ)
    let y := ((row : ℚ) + Flt.toRat (output_blob (iadd box_index (imul 1 side_square))))
      / (side : ℚ) * (resized_im_h : ℚ)
    let height := exp (Flt.toRat (output_blob (iadd box_index (imul 3 side_square))))
      * vecAt anchors (iadd (iadd anchor_offset (imul 2 n)) 1) 0
    let width := exp (Flt.toRat (output_blob (iadd box_index (imul 2 side_square))))
      * vecAt anchors (iadd anchor_offset (imul 2 n)) 0
    decodeClasses output_blob labels threshold side coords classes side_square i n scale
      x y height width
      ((original_im_h : ℚ) / (resized_im_h : ℚ)) ((original_im_w : ℚ) / (resized_im_w : ℚ))

/-- The decode loop of `ParseYOLOV3Output` (lines 199-223): the detections pushed, in order,
over all grid cells `i` and anchors `n`. -/
def decodeLoop (exp : ℚ → ℚ) (output_blob : Int → Flt) (anchors : List ℚ)
    (labels : List String) (resized_im_h resized_im_w original_im_h original_im_w : Nat)
    (threshold : ℚ) (side coords classes num anchor_offset : Int) : List DetectionObject :=
  let side_square := imul side side
  (loopRange side_square).flatMap (fun i =>
    (loopRange num).flatMap (fun n =>
      decodeCellAnchor exp output_blob anchors labels resized_im_h resized_im_w
        original_im_h original_im_w threshold side coords classes anchor_offset side_square
        i n))

/-- The function `ParseYOLOV3Output` (lines 133-224).  The result is the list `objects` after
the call, or the message of the `std::runtime_error` thrown.  `labels` is `this->labels_`. -/
def ParseYOLOV3Output (exp : ℚ → ℚ) (labels : List String) (layer : CNNLayer) (blob : Blob)
    (resized_im_h resized_im_w original_im_h original_im_w : Nat) (threshold : ℚ)
    (objects : List DetectionObject) : Except String (List DetectionObject) :=
  if layer.type ≠ "RegionYolo" then
    Except.error ("Invalid output type: " ++ layer.type ++ ". RegionYolo expected")
  else
    let out_blob_h := wrap32 (blob.h : Int)
    let out_blob_w := wrap32 (blob.w : Int)
    if out_blob_h ≠ out_blob_w then
      Except.error ("Invalid size of output " ++ layer.name ++
        " It should be in NCHW layout and H should be equal to W. Current H = " ++
        toString out_blob_h ++ ", current W = " ++ toString out_blob_h)
    else
      let num := layer.numAnchors
      let coords := layer.coords
      let classes := layer.classes
      let anchors := layer.anchorList
      let side := out_blob_h
      match anchorOffset anchors.length side with
      | Except.error e => Except.error e
      | Except.ok anchor_offset =>
        Except.ok (objects ++ decodeLoop exp blob.buffer anchors labels resized_im_h
          resized_im_w original_im_h original_im_w threshold side coords classes num
          anchor_offset)

/-! ## Non-maximum suppression and publishing (tail of `callback`) -/

/-- The postcondition of `std::sort(objects.begin(), objects.end())`: the result is a
permutation of the input in which no later element is `operator<` an earlier one.  The order
of elements of equal confidence is not determined.  (This is what `std::sort` guarantees when
no confidence is NaN, so that `operator<` is a strict weak ordering.) -/
def IsStdSort (input output : List DetectionObject) : Prop :=
  output.Perm input ∧ output.Pairwise (fun a b => ¬ DetectionObject.lt b a)

/-- One outcome of `std::sort`: insertion sort by `operator<`. -/
def sortObjects (objects : List DetectionObject) : List DetectionObject :=
  objects.insertionSort (fun a b => ¬ DetectionObject.lt b a)

/-- The inner loop of the filter (lines 296-300) for a fixed `objects[i]`, applied to the
elements after it: `confidence` of every `objects[j]` with IoU at least the threshold is set
to 0. -/
def suppress (iouThresh : ℚ) (obj_i : DetectionObject) (rest : List DetectionObject) :
    List DetectionObject :=
  rest.map (fun obj_j =>
    if Dbl.ge (IntersectionOverUnion obj_i obj_j) iouThresh then
      { obj_j with confidence := 0 }
    else obj_j)

/-- The suppression loop (lines 293-301) on the sorted vector.  `fuel` counts the remaining
iterations of the outer loop. -/
def nmsLoopAux (iouThresh : ℚ) : Nat → List DetectionObject → List DetectionObject
  | 0, objects => objects
  | _ + 1, [] => []
  | fuel + 1, obj_i :: rest =>
    if obj_i.confidence = 0 then obj_i :: nmsLoopAux iouThresh fuel rest
    else obj_i :: nmsLoopAux iouThresh fuel (suppress iouThresh obj_i rest)

/-- The suppression loop (lines 293-301): the outer loop runs `objects.size()` times. -/
def nmsLoop (iouThresh : ℚ) (objects : List DetectionObject) : List DetectionObject :=
  nmsLoopAux iouThresh objects.length objects

/-- Lines 291-301 with `sortObjects` as the outcome of `std::sort`. -/
def filterOverlapping (iouThresh : ℚ) (objects : List DetectionObject) :
    List DetectionObject :=
  nmsLoop iouThresh (sortObjects objects)

/-- The bounding boxes put in the published message (lines 304-315): `none` when nothing is
published because the vector is empty. -/
def publishedBoxes (objects : List DetectionObject) : Option (List BoundingBox) :=
  if objects.length ≠ 0 then some (objects.map DetectionObject.BoundingBox) else none

/-- Lines 291-315 of `callback`: filter the decoded detections and publish. -/
def filterAndPublish (iouThresh : ℚ) (objects : List DetectionObject) :
    Option (List BoundingBox) :=
  publishedBoxes (filterOverlapping iouThresh objects)

/-! ## Concrete inputs -/

/-- A box of 65536 by 65536 pixels, as produced by the constructor from a centre
`(32768, 32768)` and size `65536 x 65536` at scale 1. -/
def hugeBox : DetectionObject :=
  DetectionObject.new 32768 32768 65536 65536 0 "tag" (Flt.fin 1) 1 1

/-- A box of width zero at `x = 0`. -/
def thinBoxA : DetectionObject :=
  { xmin := 0, ymin := 0, xmax := 0, ymax := 5, class_id := 0, Class := "tag",
    confidence := Flt.fin 1 }

/-- A box of width zero at `x = 3`. -/
def thinBoxB : DetectionObject :=
  { xmin := 3, ymin := 0, xmax := 3, ymax := 5, class_id := 0, Class := "tag",
    confidence := Flt.fin 1 }

/-- Scenario B, the detection of confidence 0.8: the box `[0, 10] x [0, 1]`. -/
def scenarioB_hi : DetectionObject :=
  { xmin := 0, ymin := 0, xmax := 10, ymax := 1, class_id := 0, Class := "tag",
    confidence := Flt.fin (4 / 5) }

/-- Scenario B, the detection of confidence 0.6: the box `[0, 9] x [0, 1]`, whose IoU with
`scenarioB_hi` is 0.9. -/
def scenarioB_lo : DetectionObject :=
  { xmin := 0, ymin := 0, xmax := 9, ymax := 1, class_id := 0, Class := "tag",
    confidence := Flt.fin (3 / 5) }

/-- Scenario C, first detection: the box `[0, 6] x [0, 1]`. -/
def scenarioC_a : DetectionObject :=
  { xmin := 0, ymin := 0, xmax := 6, ymax := 1, class_id := 0, Class := "tag",
    confidence := Flt.fin (7 / 10) }

/-- Scenario C, second detection: the box `[4, 10] x [0, 1]`, whose IoU with `scenarioC_a`
is 0.2. -/
def scenarioC_b : DetectionObject :=
  { xmin := 4, ymin := 0, xmax := 10, ymax := 1, class_id := 1, Class := "other",
    confidence := Flt.fin (9 / 10) }

/-- A box far from the boxes of scenario B: `[20, 30] x [0, 1]`. -/
def farBox : DetectionObject :=
  { xmin := 20, ymin := 0, xmax := 30, ymax := 1, class_id := 0, Class := "tag",
    confidence := Flt.fin (1 / 2) }

/-- A stand-in for `std::exp` on concrete inputs (first-order approximation). -/
def expApprox (t : ℚ) : ℚ := 1 + t

/-- Scenario A, the layer: a `RegionYolo` layer with one anchor, four box coordinates and
one class, no `mask` and no `anchors` parameter. -/
def scenarioA_layer : CNNLayer :=
  { type := "RegionYolo", name := "detector", num := 1, mask := none, coords := 4,
    classes := 1, anchors := none }

/-- The `float` nearest to 0.9. -/
def f32_0_9 : ℚ := 7549747 / 8388608

/-- The `float` nearest to 0.95. -/
def f32_0_95 : ℚ := 15938355 / 16777216

/-- The `float` nearest to 0.3. -/
def f32_0_3 : ℚ := 5033165 / 16777216

/-- The `float` nearest to 0.4. -/
def f32_0_4 : ℚ := 13421773 / 33554432

/-- Scenario A, the tensor: a single cell; objectness 0.9 (channel 4) and class score 0.95
(channel 5) at cell (0,0), anchor 0; every other value 0. -/
def scenarioA_blob : Blob :=
  { h := 1, w := 1
    buffer := fun k =>
      if k = 4 then Flt.fin f32_0_9 else if k = 5 then Flt.fin f32_0_95 else Flt.fin 0 }

/-- The tensor of scenario A on a 13 x 13 grid: objectness 0.9 (offset `4 * 169`) and class
score 0.95 (offset `5 * 169`) at cell (0,0), anchor 0; every other value 0. -/
def grid13_blob : Blob :=
  { h := 13, w := 13
    buffer := fun k =>
      if k = 676 then Flt.fin f32_0_9 else if k = 845 then Flt.fin f32_0_95 else Flt.fin 0 }

/-- A `RegionYolo` layer of a tiny model: three anchors selected by `mask`, one class, and an
anchor list of 12 entries. -/
def tinyLayer : CNNLayer :=
  { type := "RegionYolo", name := "detector", num := 6, mask := some [3, 4, 5], coords := 4,
    classes := 1, anchors := some [10, 14, 23, 27, 37, 58, 81, 82, 135, 169, 344, 319] }

/-- An all-zero tensor on a 52 x 52 grid. -/
def grid52_blob : Blob := { h := 52, w := 52, buffer := fun _ => Flt.fin 0 }

/-- A `RegionYolo` layer with one anchor, four box coordinates and two classes. -/
def twoClassLayer : CNNLayer :=
  { type := "RegionYolo", name := "detector", num := 1, mask := none, coords := 4,
    classes := 2, anchors := none }

/-- A tensor on a 13 x 13 grid for `twoClassLayer`: at cell (0,0), anchor 0, objectness 0.75
(offset `4 * 169`), class scores 1.0 (offset `5 * 169`) and 0.4 (offset `6 * 169`), all as
`float` values; every other value 0. -/
def roundedProduct_blob : Blob :=
  { h := 13, w := 13
    buffer := fun k =>
      if k = 676 then Flt.fin (3 / 4) else if k = 845 then Flt.fin 1
      else if k = 1014 then Flt.fin f32_0_4 else Flt.fin 0 }

/-! ## Machine-integer lemmas -/

theorem wrap32_of_inInt {x : Int} (h : inInt x) : wrap32 x = x := by
  unfold wrap32
  unfold inInt at h
  omega

theorem EntryIndex_eq_of_noOverflow {side lcoords lclasses location entry : Int}
    (h : EntryIndexNoOverflow side lcoords lclasses location entry) :
    EntryIndex side lcoords lclasses location entry =
      Int.tdiv location (side * side) * side * side * (lcoords + lclasses + 1)
        + entry * side * side + Int.tmod location (side * side) := by
  obtain ⟨_, _, _, _, _, h1, h2, h3, h4, h5, h6, h7, h8, h9, h10, h11, h12⟩ := h
  simp only [EntryIndex, iadd, imul, idiv, imod, wrap32_of_inInt h1, wrap32_of_inInt h2,
    wrap32_of_inInt h3, wrap32_of_inInt h4, wrap32_of_inInt h5, wrap32_of_inInt h6,
    wrap32_of_inInt h7, wrap32_of_inInt h8, wrap32_of_inInt h9, wrap32_of_inInt h10,
    wrap32_of_inInt h11, wrap32_of_inInt h12]

/-- Uniqueness of quotient and remainder, in the shape used for the tensor layout. -/
theorem radix_unique {S a r b t : Int} (hr : 0 ≤ r) (hrS : r < S) (ht : 0 ≤ t) (htS : t < S)
    (h : S * a + r = S * b + t) : a = b ∧ r = t := by
  have hS : 0 < S := lt_of_le_of_lt hr hrS
  rcases lt_trichotomy a b with hab | hab | hab
  · exfalso
    have : S * (a + 1) ≤ S * b := mul_le_mul_of_nonneg_left (by omega) hS.le
    nlinarith
  · subst hab
    exact ⟨rfl, by linarith⟩
  · exfalso
    have : S * (b + 1) ≤ S * a := mul_le_mul_of_nonneg_left (by omega) hS.le
    nlinarith

/-- The exact value of `EntryIndex` on a non-negative location when nothing overflows. -/
theorem EntryIndex_exact {side lcoords lclasses location entry : Int}
    (hside : 1 ≤ side) (hloc : 0 ≤ location)
    (h : EntryIndexNoOverflow side lcoords lclasses location entry) :
    EntryIndex side lcoords lclasses location entry =
      (side * side) * ((location / (side * side)) * (lcoords + lclasses + 1) + entry)
        + location % (side * side) := by
  have hS : 0 ≤ side * side := by positivity
  rw [EntryIndex_eq_of_noOverflow h, Int.tdiv_eq_ediv hloc hS, Int.tmod_eq_emod hloc hS]
  ring

/-- Range of `EntryIndex` on a valid `(location, entry)` pair. -/
theorem EntryIndex_range {side coords classes num_anchors location entry : Int}
    (hside : 1 ≤ side) (hcoords : 0 ≤ coords) (hclasses : 0 ≤ classes)
    (hloc : 0 ≤ location) (hlocN : location < num_anchors * side * side)
    (hent : 0 ≤ entry) (hentC : entry < coords + 1 + classes)
    (h : EntryIndexNoOverflow side coords classes location entry) :
    0 ≤ EntryIndex side coords classes location entry ∧
      EntryIndex side coords classes location entry
        < num_anchors * (coords + 1 + classes) * side * side := by
  rw [EntryIndex_exact hside hloc h]
  have hS : 0 < side * side := by positivity
  have hlocN2 : location < num_anchors * (side * side) := by rw [← mul_assoc]; exact hlocN
  have hgoal : num_anchors * (coords + 1 + classes) * side * side
      = (side * side) * (num_anchors * (coords + classes + 1)) := by ring
  rw [hgoal]
  generalize side * side = S at hS hlocN2 ⊢
  have hC : entry + 1 ≤ coords + classes + 1 := by omega
  have hC0 : 0 ≤ coords + classes + 1 := by omega
  generalize coords + classes + 1 = C at hC hC0 ⊢
  have hr0 : 0 ≤ location % S := Int.emod_nonneg _ hS.ne'
  have hrS : location % S < S := Int.emod_lt_of_pos _ hS
  have hq0 : 0 ≤ location / S := Int.ediv_nonneg hloc hS.le
  have hqN : location / S + 1 ≤ num_anchors := by
    have : location / S < num_anchors := Int.ediv_lt_of_lt_mul hS hlocN2
    omega
  generalize location / S = q at *
  generalize location % S = r at *
  have hA0 : 0 ≤ q * C + entry := by positivity
  have hA : q * C + entry + 1 ≤ num_anchors * C := by
    have : (q + 1) * C ≤ num_anchors * C := mul_le_mul_of_nonneg_right hqN hC0
    nlinarith
  constructor
  · have : 0 ≤ S * (q * C + entry) := mul_nonneg hS.le hA0
    omega
  · have : S * (q * C + entry + 1) ≤ S * (num_anchors * C) :=
      mul_le_mul_of_nonneg_left hA hS.le
    nlinarith

/-- Injectivity of `EntryIndex` on valid `(location, entry)` pairs. -/
theorem EntryIndex_injective {side coords classes location₁ entry₁ location₂ entry₂ : Int}
    (hside : 1 ≤ side)
    (hloc₁ : 0 ≤ location₁) (hent₁ : 0 ≤ entry₁) (hentC₁ : entry₁ < coords + 1 + classes)
    (hloc₂ : 0 ≤ location₂) (hent₂ : 0 ≤ entry₂) (hentC₂ : entry₂ < coords + 1 + classes)
    (h₁ : EntryIndexNoOverflow side coords classes location₁ entry₁)
    (h₂ : EntryIndexNoOverflow side coords classes location₂ entry₂)
    (heq : EntryIndex side coords classes location₁ entry₁
      = EntryIndex side coords classes location₂ entry₂) :
    location₁ = location₂ ∧ entry₁ = entry₂ := by
  rw [EntryIndex_exact hside hloc₁ h₁, EntryIndex_exact hside hloc₂ h₂] at heq
  have hS : 0 < side * side := by positivity
  generalize side * side = S at hS heq
  have hd₁ := Int.ediv_add_emod location₁ S
  have hd₂ := Int.ediv_add_emod location₂ S
  have hr₁ : 0 ≤ location₁ % S := Int.emod_nonneg _ hS.ne'
  have hrS₁ : location₁ % S < S := Int.emod_lt_of_pos _ hS
  have hr₂ : 0 ≤ location₂ % S := Int.emod_nonneg _ hS.ne'
  have hrS₂ : location₂ % S < S := Int.emod_lt_of_pos _ hS
  obtain ⟨hA, hr⟩ := radix_unique hr₁ hrS₁ hr₂ hrS₂ heq
  have hC : 0 < coords + classes + 1 := by omega
  have hA2 : (coords + classes + 1) * (location₁ / S) + entry₁
      = (coords + classes + 1) * (location₂ / S) + entry₂ := by linarith
  obtain ⟨hq, he⟩ := radix_unique hent₁ (by omega) hent₂ (by omega) hA2
  refine ⟨?_, he⟩
  rw [← hd₁, ← hd₂, hq, hr]

/-! ## Intersection over union -/

theorem hugeBox_fields : hugeBox =
    { xmin := 0, ymin := 0, xmax := 65536, ymax := 65536, class_id := 0, Class := "tag",
      confidence := Flt.fin 1 } := by
  norm_num [hugeBox, DetectionObject.new, castInt]

/-- The order of the two arguments of `IntersectionOverUnion` does not matter. -/
theorem IntersectionOverUnion_comm (a b : DetectionObject) :
    IntersectionOverUnion a b = IntersectionOverUnion b a := by
  simp only [IntersectionOverUnion]
  rw [min_comm (a.xmax : ℚ), max_comm (a.xmin : ℚ), min_comm (a.ymax : ℚ),
    max_comm (a.ymin : ℚ), add_comm ((boxArea a : Int) : ℚ)]

/-- For a non-degenerate box whose `int` area computation does not overflow, the IoU of the
box with itself is exactly 1. -/
theorem IntersectionOverUnion_self_of_inInt (a : DetectionObject)
    (hx : a.xmin < a.xmax) (hy : a.ymin < a.ymax)
    (hw : inInt (a.xmax - a.xmin)) (hh : inInt (a.ymax - a.ymin))
    (harea : inInt ((a.ymax - a.ymin) * (a.xmax - a.xmin))) :
    IntersectionOverUnion a a = Dbl.fin 1 := by
  have hA : boxArea a = (a.ymax - a.ymin) * (a.xmax - a.xmin) := by
    simp only [boxArea, imul, isub, wrap32_of_inInt hw, wrap32_of_inInt hh,
      wrap32_of_inInt harea]
  have hxq : (a.xmin : ℚ) < a.xmax := by exact_mod_cast hx
  have hyq : (a.ymin : ℚ) < a.ymax := by exact_mod_cast hy
  have hpos : (0 : ℚ) < ((a.ymax : ℚ) - a.ymin) * ((a.xmax : ℚ) - a.xmin) :=
    mul_pos (by linarith) (by linarith)
  simp only [IntersectionOverUnion, hA, min_self, max_self]
  have hcond : ¬ ((a.xmax : ℚ) - a.xmin < 0 ∨ (a.ymax : ℚ) - a.ymin < 0) := by
    push_neg
    constructor <;> linarith
  rw [if_neg hcond]
  push_cast
  have hne : ((a.ymax : ℚ) - a.ymin) * ((a.xmax : ℚ) - a.xmin)
      + ((a.ymax : ℚ) - a.ymin) * ((a.xmax : ℚ) - a.xmin)
      - ((a.xmax : ℚ) - a.xmin) * ((a.ymax : ℚ) - a.ymin) ≠ 0 := by
    have : ((a.ymax : ℚ) - a.ymin) * ((a.xmax : ℚ) - a.xmin)
      + ((a.ymax : ℚ) - a.ymin) * ((a.xmax : ℚ) - a.xmin)
      - ((a.xmax : ℚ) - a.xmin) * ((a.ymax : ℚ) - a.ymin)
      = ((a.ymax : ℚ) - a.ymin) * ((a.xmax : ℚ) - a.xmin) := by ring
    rw [this]
    exact hpos.ne'
  rw [Dbl.div, if_neg hne]
  congr 1
  rw [div_eq_one_iff_eq hne]
  ring

/-- C9: the box `hugeBox` has integer corners with `xmin < xmax` and `ymin < ymax`, all
representable as `int`, but `IntersectionOverUnion hugeBox hugeBox` is `-1`, not `1`: the
`int` product `65536 * 65536` of line 126 wraps to 0 while the overlap, computed in
`double`, is `2^32`. -/
theorem C9_IntersectionOverUnion_self_overflow :
    hugeBox.xmin < hugeBox.xmax ∧ hugeBox.ymin < hugeBox.ymax ∧
    inInt hugeBox.xmin ∧ inInt hugeBox.ymin ∧ inInt hugeBox.xmax ∧ inInt hugeBox.ymax ∧
    boxArea hugeBox = 0 ∧
    IntersectionOverUnion hugeBox hugeBox = Dbl.fin (-1) := by
  have hA : boxArea hugeBox = 0 := by rw [hugeBox_fields]; decide
  refine ⟨?_, ?_, ?_, ?_, ?_, ?_, hA, ?_⟩
  · rw [hugeBox_fields]; decide
  · rw [hugeBox_fields]; decide
  · rw [hugeBox_fields]; decide
  · rw [hugeBox_fields]; decide
  · rw [hugeBox_fields]; decide
  · rw [hugeBox_fields]; decide
  · simp only [IntersectionOverUnion, hA]
    rw [hugeBox_fields]
    norm_num [Dbl.div]

/-- C10, counterexample: `thinBoxA` and `thinBoxB` have no spatial overlap (the overlap width
is `-3`), yet `IntersectionOverUnion` is NaN, not 0: both areas are 0 and the function
divides 0 by 0. -/
theorem C10_IntersectionOverUnion_disjoint_counterexample :
    (min (thinBoxA.xmax : ℚ) thinBoxB.xmax - max (thinBoxA.xmin : ℚ) thinBoxB.xmin < 0 ∨
      min (thinBoxA.ymax : ℚ) thinBoxB.ymax - max (thinBoxA.ymin : ℚ) thinBoxB.ymin < 0) ∧
    IntersectionOverUnion thinBoxA thinBoxB = Dbl.nan ∧
    IntersectionOverUnion thinBoxA thinBoxB ≠ Dbl.fin 0 := by
  have hA : boxArea thinBoxA = 0 := by decide
  have hB : boxArea thinBoxB = 0 := by decide
  have h : IntersectionOverUnion thinBoxA thinBoxB = Dbl.nan := by
    simp only [IntersectionOverUnion, hA, hB]
    norm_num [Dbl.div, thinBoxA, thinBoxB]
  refine ⟨?_, h, ?_⟩
  · left
    norm_num [thinBoxA, thinBoxB]
  · rw [h]
    exact fun hc => Dbl.noConfusion hc

/-- C10, amended: for two boxes with no spatial overlap whose computed areas do not sum to
zero, `IntersectionOverUnion` is exactly 0. -/
theorem C10_IntersectionOverUnion_disjoint (a b : DetectionObject)
    (hdisj : min (a.xmax : ℚ) b.xmax - max (a.xmin : ℚ) b.xmin < 0 ∨
      min (a.ymax : ℚ) b.ymax - max (a.ymin : ℚ) b.ymin < 0)
    (hunion : boxArea a + boxArea b ≠ 0) :
    IntersectionOverUnion a b = Dbl.fin 0 := by
  have hq : ((boxArea a : Int) : ℚ) + ((boxArea b : Int) : ℚ) - 0 ≠ 0 := by
    rw [sub_zero]
    exact_mod_cast hunion
  simp only [IntersectionOverUnion, if_pos hdisj]
  rw [Dbl.div, if_neg hq, zero_div]

/-- For two boxes with no spatial overlap whose computed areas sum to zero, the function
divides 0 by 0 and returns NaN. -/
theorem IntersectionOverUnion_disjoint_nan (a b : DetectionObject)
    (hdisj : min (a.xmax : ℚ) b.xmax - max (a.xmin : ℚ) b.xmin < 0 ∨
      min (a.ymax : ℚ) b.ymax - max (a.ymin : ℚ) b.ymin < 0)
    (hunion : boxArea a + boxArea b = 0) :
    IntersectionOverUnion a b = Dbl.nan := by
  have hq : ((boxArea a : Int) : ℚ) + ((boxArea b : Int) : ℚ) - 0 = 0 := by
    rw [sub_zero]
    exact_mod_cast hunion
  simp only [IntersectionOverUnion, if_pos hdisj]
  rw [Dbl.div, if_pos hq, if_pos rfl]

/-- C10, witness: `scenarioB_lo` and `farBox` are disjoint along x and their areas sum to 19. -/
theorem C10_IntersectionOverUnion_disjoint_witness :
    (min (scenarioB_lo.xmax : ℚ) farBox.xmax - max (scenarioB_lo.xmin : ℚ) farBox.xmin < 0 ∨
      min (scenarioB_lo.ymax : ℚ) farBox.ymax - max (scenarioB_lo.ymin : ℚ) farBox.ymin < 0) ∧
    boxArea scenarioB_lo + boxArea farBox ≠ 0 ∧
    IntersectionOverUnion scenarioB_lo farBox = Dbl.fin 0 :=
  ⟨Or.inl (by norm_num [scenarioB_lo, farBox]), by decide,
    C10_IntersectionOverUnion_disjoint scenarioB_lo farBox
      (Or.inl (by norm_num [scenarioB_lo, farBox])) (by decide)⟩

/-! ## Suppression loop -/

theorem suppress_length (iouThresh : ℚ) (a : DetectionObject) (rest : List DetectionObject) :
    (suppress iouThresh a rest).length = rest.length := by
  simp [suppress]

theorem zero_confidence_eq (b : DetectionObject) (h : b.confidence = 0) :
    { b with confidence := 0 } = b := by
  cases b
  simp only [DetectionObject.mk.injEq, true_and] at *
  exact h.symm

/-- The loop leaves a list unchanged when no detection of non-zero confidence has an IoU of
at least the threshold with a later detection of non-zero confidence. -/
theorem nmsLoopAux_fixed (iouThresh : ℚ) (fuel : Nat) (objects : List DetectionObject)
    (h : objects.Pairwise (fun a b => a.confidence ≠ 0 → b.confidence ≠ 0 →
      ¬ Dbl.ge (IntersectionOverUnion a b) iouThresh)) :
    nmsLoopAux iouThresh fuel objects = objects := by
  induction fuel generalizing objects with
  | zero => rfl
  | succ fuel ih =>
    cases objects with
    | nil => rfl
    | cons a rest =>
      rw [List.pairwise_cons] at h
      obtain ⟨ha, hrest⟩ := h
      simp only [nmsLoopAux]
      split
      · rw [ih rest hrest]
      · rename_i hne
        have hs : suppress iouThresh a rest = rest := by
          unfold suppress
          conv_rhs => rw [← List.map_id rest]
          apply List.map_congr_left
          intro b hb
          by_cases hb0 : b.confidence = 0
          · split
            · exact zero_confidence_eq b hb0
            · rfl
          · rw [if_neg (ha b hb hne hb0)]
            rfl
        rw [hs, ih rest hrest]

/-- A property that holds for every detection of confidence 0 and for every element of the
input holds for every element of the output of the loop. -/
theorem nmsLoopAux_forall (iouThresh : ℚ) (P : DetectionObject → Prop)
    (hP : ∀ b : DetectionObject, b.confidence = 0 → P b)
    (fuel : Nat) (objects : List DetectionObject) (h : ∀ b ∈ objects, P b) :
    ∀ b ∈ nmsLoopAux iouThresh fuel objects, P b := by
  induction fuel generalizing objects with
  | zero => exact h
  | succ fuel ih =>
    cases objects with
    | nil => intro b hb; simp [nmsLoopAux] at hb
    | cons a rest =>
      have hsup : ∀ b ∈ suppress iouThresh a rest, P b := by
        intro b hb
        simp only [suppress, List.mem_map] at hb
        obtain ⟨c, hc, rfl⟩ := hb
        split
        · exact hP _ rfl
        · exact h c (List.mem_cons_of_mem _ hc)
      simp only [nmsLoopAux]
      split
      · intro b hb
        rcases List.mem_cons.mp hb with rfl | hb
        · exact h _ (List.mem_cons_self _ _)
        · exact ih rest (fun c hc => h c (List.mem_cons_of_mem _ hc)) b hb
      · intro b hb
        rcases List.mem_cons.mp hb with rfl | hb
        · exact h _ (List.mem_cons_self _ _)
        · exact ih _ hsup b hb

/-- After the loop, no detection of non-zero confidence has an IoU of at least the threshold
with a later detection of non-zero confidence. -/
theorem nmsLoopAux_pairwise (iouThresh : ℚ) (fuel : Nat) (objects : List DetectionObject)
    (hfuel : objects.length ≤ fuel) :
    (nmsLoopAux iouThresh fuel objects).Pairwise (fun a b => a.confidence ≠ 0 →
      b.confidence ≠ 0 → ¬ Dbl.ge (IntersectionOverUnion a b) iouThresh) := by
  induction fuel generalizing objects with
  | zero =>
    have : objects = [] := List.length_eq_zero.mp (Nat.le_zero.mp hfuel)
    subst this
    simp [nmsLoopAux]
  | succ fuel ih =>
    cases objects with
    | nil => simp [nmsLoopAux]
    | cons a rest =>
      have hlen : rest.length ≤ fuel := by simpa using hfuel
      simp only [nmsLoopAux]
      split
      · rename_i h0
        rw [List.pairwise_cons]
        exact ⟨fun b _ ha _ => absurd h0 ha, ih rest hlen⟩
      · rw [List.pairwise_cons]
        refine ⟨?_, ih _ (by rw [suppress_length]; exact hlen)⟩
        apply nmsLoopAux_forall iouThresh
          (fun b => a.confidence ≠ 0 → b.confidence ≠ 0 →
            ¬ Dbl.ge (IntersectionOverUnion a b) iouThresh)
        · intro b hb _ hb0
          exact absurd hb hb0
        · intro b hb _ hb0
          simp only [suppress, List.mem_map] at hb
          obtain ⟨c, _, rfl⟩ := hb
          by_cases hge : Dbl.ge (IntersectionOverUnion a c) iouThresh
          · rw [if_pos hge] at hb0
            exact absurd rfl hb0
          · rw [if_neg hge]
            exact hge

theorem Dbl.not_ge_of_lt {v : Dbl} {t : ℚ} (h : Dbl.lt v t) : ¬ Dbl.ge v t := by
  cases v with
  | nan => exact fun hc => hc
  | posInf => exact fun _ => h
  | negInf => exact fun hc => hc
  | fin q => exact not_le.mpr h

theorem Flt.less_fin_fin (p q : ℚ) : Flt.less (Flt.fin p) (Flt.fin q) ↔ p < q := Iff.rfl

theorem Flt.fin_eq_zero_iff (q : ℚ) : Flt.fin q = 0 ↔ q = 0 := by
  constructor
  · intro h
    exact Flt.fin.inj h
  · intro h
    rw [h]
    rfl

theorem Flt.less_irrefl (a : Flt) : ¬ Flt.less a a := by
  cases a with
  | nan => exact fun h => h
  | posInf => exact fun h => h
  | negInf => exact fun h => h
  | fin q => exact lt_irrefl q

theorem scenarioB_sorted :
    sortObjects [scenarioB_hi, scenarioB_lo] = [scenarioB_lo, scenarioB_hi] ∧
    sortObjects [scenarioB_lo, scenarioB_hi] = [scenarioB_lo, scenarioB_hi] := by
  constructor <;>
    norm_num [sortObjects, List.insertionSort, List.orderedInsert, DetectionObject.lt,
      Flt.less_fin_fin, scenarioB_hi, scenarioB_lo]

theorem scenarioB_iou :
    IntersectionOverUnion scenarioB_lo scenarioB_hi = Dbl.fin (9 / 10) := by
  have hA : boxArea scenarioB_lo = 9 := by decide
  have hB : boxArea scenarioB_hi = 10 := by decide
  simp only [IntersectionOverUnion, hA, hB]
  norm_num [Dbl.div, scenarioB_hi, scenarioB_lo]

theorem scenarioB_loop :
    nmsLoop (1 / 2) [scenarioB_lo, scenarioB_hi]
      = [scenarioB_lo, { scenarioB_hi with confidence := 0 }] := by
  have hlo : scenarioB_lo.confidence ≠ 0 := by
    norm_num [scenarioB_lo, Flt.fin_eq_zero_iff]
  have hge : Dbl.ge (IntersectionOverUnion scenarioB_lo scenarioB_hi) (1 / 2) := by
    rw [scenarioB_iou]
    norm_num [Dbl.ge]
  simp only [nmsLoop, List.length_cons, List.length_nil, nmsLoopAux, if_neg hlo, suppress,
    List.map_cons, List.map_nil, if_pos hge]
  simp

/-- C1: on the two detections of scenario B (IoU 0.9, confidences 0.8 and 0.6, threshold
0.5), in either input order, the filter keeps the confidence of the detection of confidence
0.6 and sets the confidence of the detection of confidence 0.8 to 0: the ascending sort
puts the lower confidence first, and the loop suppresses the later element. -/
theorem C1_nms_scenarioB_suppresses_higher :
    IntersectionOverUnion scenarioB_hi scenarioB_lo = Dbl.fin (9 / 10) ∧
    scenarioB_hi.confidence = Flt.fin (4 / 5) ∧ scenarioB_lo.confidence = Flt.fin (3 / 5) ∧
    filterOverlapping (1 / 2) [scenarioB_hi, scenarioB_lo]
      = [scenarioB_lo, { scenarioB_hi with confidence := 0 }] ∧
    filterOverlapping (1 / 2) [scenarioB_lo, scenarioB_hi]
      = [scenarioB_lo, { scenarioB_hi with confidence := 0 }] := by
  refine ⟨?_, rfl, rfl, ?_, ?_⟩
  · rw [IntersectionOverUnion_comm, scenarioB_iou]
  · rw [filterOverlapping, scenarioB_sorted.1, scenarioB_loop]
  · rw [filterOverlapping, scenarioB_sorted.2, scenarioB_loop]

/-- C8: on the two detections of scenario B the message handed to the publisher holds two
bounding boxes, and the second one is the suppressed detection, published with
probability 0. -/
theorem C8_published_boxes_include_suppressed :
    filterAndPublish (1 / 2) [scenarioB_hi, scenarioB_lo]
      = some [DetectionObject.BoundingBox scenarioB_lo,
          DetectionObject.BoundingBox { scenarioB_hi with confidence := 0 }] ∧
    (DetectionObject.BoundingBox { scenarioB_hi with confidence := 0 }).probability = 0 := by
  refine ⟨?_, rfl⟩
  rw [filterAndPublish, filterOverlapping, scenarioB_sorted.1, scenarioB_loop]
  simp [publishedBoxes]

/-- C7: when every pair of detections has IoU strictly below the threshold, the suppression
loop returns the sorted vector unchanged, whatever the confidences and whatever order
`std::sort` produced: no confidence is changed and every detection survives. -/
theorem C7_nms_keeps_non_overlapping (iouThresh : ℚ) (objects sorted : List DetectionObject)
    (hsort : IsStdSort objects sorted)
    (hpairs : objects.Pairwise
      (fun a b => Dbl.lt (IntersectionOverUnion a b) iouThresh)) :
    nmsLoop iouThresh sorted = sorted ∧ (nmsLoop iouThresh sorted).Perm objects := by
  have hsymm : ∀ {x y : DetectionObject}, Dbl.lt (IntersectionOverUnion x y) iouThresh →
      Dbl.lt (IntersectionOverUnion y x) iouThresh := by
    intro x y h
    rw [IntersectionOverUnion_comm]
    exact h
  have hs : sorted.Pairwise (fun a b => Dbl.lt (IntersectionOverUnion a b) iouThresh) :=
    (List.Perm.pairwise_iff hsymm hsort.1).mpr hpairs
  have hfix : nmsLoop iouThresh sorted = sorted :=
    nmsLoopAux_fixed iouThresh sorted.length sorted
      (hs.imp (fun h _ _ => Dbl.not_ge_of_lt h))
  exact ⟨hfix, by rw [hfix]; exact hsort.1⟩

/-- C7, witness: scenario C, two detections of IoU 0.2 under threshold 0.5. -/
theorem C7_nms_keeps_non_overlapping_witness :
    IntersectionOverUnion scenarioC_a scenarioC_b = Dbl.fin (1 / 5) ∧
    nmsLoop (1 / 2) [scenarioC_a, scenarioC_b] = [scenarioC_a, scenarioC_b] ∧
    (nmsLoop (1 / 2) [scenarioC_a, scenarioC_b]).Perm [scenarioC_b, scenarioC_a] := by
  have hA : boxArea scenarioC_a = 6 := by decide
  have hB : boxArea scenarioC_b = 6 := by decide
  have hiou : IntersectionOverUnion scenarioC_b scenarioC_a = Dbl.fin (1 / 5) := by
    simp only [IntersectionOverUnion, hA, hB]
    norm_num [Dbl.div, scenarioC_a, scenarioC_b]
  have hsort : IsStdSort [scenarioC_b, scenarioC_a] [scenarioC_a, scenarioC_b] := by
    refine ⟨List.Perm.swap _ _ _, ?_⟩
    norm_num [DetectionObject.lt, Flt.less_fin_fin, scenarioC_a, scenarioC_b]
  have hpairs : [scenarioC_b, scenarioC_a].Pairwise
      (fun a b => Dbl.lt (IntersectionOverUnion a b) (1 / 2)) := by
    rw [List.pairwise_pair, hiou]
    norm_num [Dbl.lt]
  exact ⟨by rw [IntersectionOverUnion_comm, hiou],
    C7_nms_keeps_non_overlapping (1 / 2) [scenarioC_b, scenarioC_a]
      [scenarioC_a, scenarioC_b] hsort hpairs⟩

/-- C3: running the filter on the output of a first run changes nothing.  For every list of
detections, every threshold and every outcome of the two `std::sort` calls, the second
suppression loop returns its sorted input unchanged, so the detections of non-zero
confidence after the second run are exactly those after the first run. -/
theorem C3_nms_idempotent (iouThresh : ℚ) (objects sorted₁ sorted₂ : List DetectionObject)
    (_hsort₁ : IsStdSort objects sorted₁)
    (hsort₂ : IsStdSort (nmsLoop iouThresh sorted₁) sorted₂) :
    nmsLoop iouThresh sorted₂ = sorted₂ ∧
    ((nmsLoop iouThresh sorted₂).filter (fun d => decide (d.confidence ≠ 0))).Perm
      ((nmsLoop iouThresh sorted₁).filter (fun d => decide (d.confidence ≠ 0))) := by
  have hsymm : ∀ {x y : DetectionObject},
      (x.confidence ≠ 0 → y.confidence ≠ 0 →
        ¬ Dbl.ge (IntersectionOverUnion x y) iouThresh) →
      (y.confidence ≠ 0 → x.confidence ≠ 0 →
        ¬ Dbl.ge (IntersectionOverUnion y x) iouThresh) := by
    intro x y h hy hx
    rw [IntersectionOverUnion_comm]
    exact h hx hy
  have h₁ := nmsLoopAux_pairwise iouThresh sorted₁.length sorted₁ le_rfl
  have h₂ := (List.Perm.pairwise_iff hsymm hsort₂.1).mpr h₁
  have hfix : nmsLoop iouThresh sorted₂ = sorted₂ :=
    nmsLoopAux_fixed iouThresh sorted₂.length sorted₂ h₂
  exact ⟨hfix, by rw [hfix]; exact hsort₂.1.filter _⟩

/-- C3, witness: scenario B, where the first run suppresses one detection. -/
theorem C3_nms_idempotent_witness :
    nmsLoop (1 / 2) [{ scenarioB_hi with confidence := 0 }, scenarioB_lo]
      = [{ scenarioB_hi with confidence := 0 }, scenarioB_lo] ∧
    ((nmsLoop (1 / 2) [{ scenarioB_hi with confidence := 0 }, scenarioB_lo]).filter
        (fun d => decide (d.confidence ≠ 0))).Perm
      ((nmsLoop (1 / 2) [scenarioB_lo, scenarioB_hi]).filter
        (fun d => decide (d.confidence ≠ 0))) := by
  have hsort₁ : IsStdSort [scenarioB_hi, scenarioB_lo] [scenarioB_lo, scenarioB_hi] := by
    refine ⟨List.Perm.swap _ _ _, ?_⟩
    norm_num [DetectionObject.lt, Flt.less_fin_fin, scenarioB_hi, scenarioB_lo]
  have hsort₂ : IsStdSort (nmsLoop (1 / 2) [scenarioB_lo, scenarioB_hi])
      [{ scenarioB_hi with confidence := 0 }, scenarioB_lo] := by
    rw [scenarioB_loop]
    refine ⟨List.Perm.swap _ _ _, ?_⟩
    rw [List.pairwise_pair]
    show ¬ Flt.less (Flt.fin (3 / 5)) (Flt.fin 0)
    rw [Flt.less_fin_fin]
    norm_num
  exact C3_nms_idempotent (1 / 2) [scenarioB_hi, scenarioB_lo] [scenarioB_lo, scenarioB_hi]
    [{ scenarioB_hi with confidence := 0 }, scenarioB_lo] hsort₁ hsort₂

theorem Flt.not_less_total {a b : Flt} : ¬ Flt.less b a ∨ ¬ Flt.less a b := by
  cases a <;> cases b <;> simp only [Flt.less, not_false_eq_true, not_true_eq_false,
    or_true, true_or, or_self]
  exact (le_total _ _).imp not_lt.mpr not_lt.mpr

theorem Flt.not_less_trans {a b c : Flt} (hb : b ≠ Flt.nan) (hab : ¬ Flt.less b a)
    (hbc : ¬ Flt.less c b) : ¬ Flt.less c a := by
  cases a <;> cases b <;> cases c <;>
    simp only [Flt.less, not_false_eq_true, not_true_eq_false, ne_eq, not_lt] at *
  exact le_trans hab hbc

/-- Insertion into a sorted vector without NaN confidences keeps it sorted. -/
theorem orderedInsert_sorted (a : DetectionObject) (l : List DetectionObject)
    (hl : ∀ d ∈ l, d.confidence ≠ Flt.nan)
    (hs : l.Pairwise (fun a b => ¬ DetectionObject.lt b a)) :
    (l.orderedInsert (fun a b => ¬ DetectionObject.lt b a) a).Pairwise
      (fun a b => ¬ DetectionObject.lt b a) := by
  induction l with
  | nil => simp
  | cons b t ih =>
    rw [List.pairwise_cons] at hs
    have hb : b.confidence ≠ Flt.nan := hl b (List.mem_cons_self _ _)
    rw [List.orderedInsert]
    split
    · rename_i hab
      rw [List.pairwise_cons]
      refine ⟨?_, List.pairwise_cons.mpr hs⟩
      intro c hc
      rcases List.mem_cons.mp hc with rfl | hct
      · exact hab
      · exact Flt.not_less_trans hb hab (hs.1 c hct)
    · rename_i hab
      rw [List.pairwise_cons]
      refine ⟨?_, ih (fun d hd => hl d (List.mem_cons_of_mem _ hd)) hs.2⟩
      intro c hc
      rcases (List.mem_orderedInsert _).mp hc with rfl | hct
      · exact (Flt.not_less_total (a := b.confidence) (b := c.confidence)).resolve_right
          (fun h => hab h)
      · exact hs.1 c hct

/-- The outcome `sortObjects` satisfies the postcondition of `std::sort` on a vector without
NaN confidences. -/
theorem sortObjects_isStdSort (objects : List DetectionObject)
    (h : ∀ d ∈ objects, d.confidence ≠ Flt.nan) :
    IsStdSort objects (sortObjects objects) := by
  refine ⟨List.perm_insertionSort _ _, ?_⟩
  unfold sortObjects
  induction objects with
  | nil => simp
  | cons a t ih =>
    rw [List.insertionSort]
    apply orderedInsert_sorted
    · intro d hd
      exact h d (List.mem_cons_of_mem _ ((List.perm_insertionSort _ t).subset hd))
    · exact ih (fun d hd => h d (List.mem_cons_of_mem _ hd))

/-- Two detections of different confidence have a single sorted order, whatever
`std::sort` does. -/
theorem isStdSort_pair_unique (lo hi : DetectionObject) (sorted : List DetectionObject)
    (hlt : Flt.less lo.confidence hi.confidence)
    (hsort : IsStdSort [hi, lo] sorted ∨ IsStdSort [lo, hi] sorted) :
    sorted = [lo, hi] := by
  have hperm : sorted.Perm [lo, hi] := by
    rcases hsort with h | h
    · exact h.1.trans (List.Perm.swap _ _ _)
    · exact h.1
  have hpw : sorted.Pairwise (fun a b => ¬ DetectionObject.lt b a) := by
    rcases hsort with h | h
    · exact h.2
    · exact h.2
  have hlen : sorted.length = 2 := hperm.length_eq
  match sorted, hlen with
  | [a, b], _ =>
    have ha : a ∈ [lo, hi] := hperm.subset (List.mem_cons_self _ _)
    have hb : b ∈ [lo, hi] := hperm.subset (List.mem_cons_of_mem _ (List.mem_cons_self _ _))
    have hlo : lo ∈ [a, b] := hperm.symm.subset (List.mem_cons_self _ _)
    have hhi : hi ∈ [a, b] :=
      hperm.symm.subset (List.mem_cons_of_mem _ (List.mem_cons_self _ _))
    have hab : ¬ DetectionObject.lt b a := (List.pairwise_pair.mp hpw)
    have hne : lo ≠ hi := fun h => by rw [h] at hlt; exact Flt.less_irrefl _ hlt
    simp only [List.mem_cons, List.mem_singleton, List.not_mem_nil, or_false] at ha hb hlo hhi
    rcases ha with rfl | rfl
    · rcases hb with rfl | rfl
      · rcases hhi with h | h <;> exact absurd h.symm hne
      · rfl
    · rcases hb with rfl | rfl
      · exact absurd hlt hab
      · rcases hlo with h | h <;> exact absurd h hne

/-- On two detections of different confidence whose IoU is at least the threshold, the
detection of lower confidence (if its confidence is not 0) keeps its confidence and the
detection of higher confidence is set to 0, whatever `std::sort` does. -/
theorem nmsLoop_pair_suppresses_higher (iouThresh : ℚ) (lo hi : DetectionObject)
    (sorted : List DetectionObject)
    (hlt : Flt.less lo.confidence hi.confidence) (hlo : lo.confidence ≠ 0)
    (hge : Dbl.ge (IntersectionOverUnion lo hi) iouThresh)
    (hsort : IsStdSort [hi, lo] sorted ∨ IsStdSort [lo, hi] sorted) :
    nmsLoop iouThresh sorted = [lo, { hi with confidence := 0 }] := by
  rw [isStdSort_pair_unique lo hi sorted hlt hsort]
  simp only [nmsLoop, List.length_cons, List.length_nil, nmsLoopAux, if_neg hlo, suppress,
    List.map_cons, List.map_nil, if_pos hge]
  simp

/-! ## Region decoder -/

theorem mem_loopRange {bound k : Int} : k ∈ loopRange bound ↔ 0 ≤ k ∧ k < bound := by
  simp only [loopRange, List.mem_map, List.mem_range]
  constructor
  · rintro ⟨m, hm, rfl⟩
    omega
  · rintro ⟨h0, hlt⟩
    exact ⟨k.toNat, by omega, Int.toNat_of_nonneg h0⟩

theorem loopRange_nodup (bound : Int) : (loopRange bound).Nodup := by
  unfold loopRange
  apply List.Nodup.map
  · intro a b h
    exact Int.ofNat_inj.mp h
  · exact List.nodup_range _

/-- A loop in which a single iteration pushes anything pushes what that iteration pushes. -/
theorem flatMap_eq_of_unique {α β : Type} (l : List α) (f : α → List β) (x₀ : α)
    (hnd : l.Nodup) (hx₀ : x₀ ∈ l) (hrest : ∀ x ∈ l, x ≠ x₀ → f x = []) :
    l.flatMap f = f x₀ := by
  induction l with
  | nil => simp at hx₀
  | cons a t ih =>
    rw [List.nodup_cons] at hnd
    rw [List.flatMap_cons]
    rcases List.mem_cons.mp hx₀ with rfl | hmem
    · have ht : t.flatMap f = [] := by
        rw [List.flatMap_eq_nil_iff]
        intro x hx
        exact hrest x (List.mem_cons_of_mem _ hx) (fun h => hnd.1 (h ▸ hx))
      rw [ht, List.append_nil]
    · have ha : f a = [] :=
        hrest a (List.mem_cons_self _ _) (fun h => hnd.1 (h ▸ hmem))
      rw [ha, List.nil_append]
      exact ih hnd.2 hmem (fun x hx => hrest x (List.mem_cons_of_mem _ hx))

/-- A loop whose every iteration pushes at most as much as the same iteration of another
loop pushes at most as much in total. -/
theorem length_flatMap_le {α β : Type} (l : List α) (f g : α → List β)
    (h : ∀ x ∈ l, (f x).length ≤ (g x).length) :
    (l.flatMap f).length ≤ (l.flatMap g).length := by
  induction l with
  | nil => simp
  | cons a t ih =>
    simp only [List.flatMap_cons, List.length_append]
    exact Nat.add_le_add (h a (List.mem_cons_self _ _))
      (ih (fun x hx => h x (List.mem_cons_of_mem _ hx)))

/-- The code's anchor-offset selection is the lookup of the specification. -/
theorem anchorOffset_eq_spec (anchorsSize : Nat) (side : Int) :
    anchorOffset anchorsSize side = specAnchorOffset anchorsSize side := by
  have h6 : imul 2 6 = 12 := by decide
  have h3 : imul 2 3 = 6 := by decide
  have h0 : imul 2 0 = 0 := by decide
  unfold anchorOffset specAnchorOffset specAnchorTable
  rw [h6, h3, h0]
  by_cases h13 : side = 13
  · subst h13
    by_cases h18 : anchorsSize = 18
    · simp [h18, List.lookup]
    · by_cases h12 : anchorsSize = 12
      · simp [h12, List.lookup]
      · simp [h18, h12, List.lookup]
  · by_cases h26 : side = 26
    · subst h26
      by_cases h18 : anchorsSize = 18
      · simp [h18, List.lookup]
      · by_cases h12 : anchorsSize = 12
        · simp [h12, List.lookup]
        · simp [h18, h12, List.lookup]
    · by_cases h52 : side = 52
      · subst h52
        by_cases h18 : anchorsSize = 18
        · simp [h18, List.lookup]
        · by_cases h12 : anchorsSize = 12
          · simp [h12, List.lookup]
          · simp [h18, h12, List.lookup]
      · have e13 : (side == 13) = false := by simpa using h13
        have e26 : (side == 26) = false := by simpa using h26
        have e52 : (side == 52) = false := by simpa using h52
        simp only [if_neg h13, if_neg h26, if_neg h52]
        split_ifs <;> simp only [List.lookup, e13, e26, e52]

/-- The decoder on a tensor that passes the type check and the square check: the error of
the anchor-offset selection, or the list extended by the decode loop. -/
theorem ParseYOLOV3Output_of_valid (exp : ℚ → ℚ) (labels : List String) (layer : CNNLayer)
    (blob : Blob) (resized_im_h resized_im_w original_im_h original_im_w : Nat)
    (threshold : ℚ) (objects : List DetectionObject)
    (htype : layer.type = "RegionYolo") (hsquare : wrap32 (blob.h : Int) = wrap32 (blob.w : Int)) :
    ParseYOLOV3Output exp labels layer blob resized_im_h resized_im_w original_im_h
        original_im_w threshold objects =
      match anchorOffset layer.anchorList.length blob.side with
      | Except.error e => Except.error e
      | Except.ok anchor_offset =>
        Except.ok (objects ++ decodeLoop exp blob.buffer layer.anchorList labels resized_im_h
          resized_im_w original_im_h original_im_w threshold blob.side layer.coords
          layer.classes layer.numAnchors anchor_offset) := by
  unfold ParseYOLOV3Output
  rw [if_neg (not_not.mpr htype)]
  simp only [if_neg (not_not.mpr hsquare)]
  rfl

theorem anchorOffset_error_iff (anchorsSize : Nat) (side : Int) :
    anchorOffset anchorsSize side = Except.error "Invalid output size" ↔
      side ∉ (specAnchorTable anchorsSize).map Prod.fst := by
  rw [anchorOffset_eq_spec, specAnchorOffset]
  cases hl : (specAnchorTable anchorsSize).lookup side with
  | none =>
    rw [List.lookup_eq_none_iff] at hl
    simp only [true_iff, List.mem_map, not_exists, not_and]
    intro p hp heq
    have := hl p hp
    simp [heq] at this
  | some off =>
    simp only [false_iff, not_not]
    rw [List.lookup_eq_some_iff] at hl
    obtain ⟨l₁, l₂, hl, _⟩ := hl
    rw [hl]
    simp

/-- C5: the anchor-offset selection of the decoder is the lookup of the specification on
(anchor-list length, side), with the entries 18: 13 -> 12, 26 -> 6, 52 -> 0 and
12: 13 -> 6, 26 -> 0, the table of length 18 for every other length, and the error
`Invalid output size` exactly when `side` is not a key of the table used; and on a tensor
that reaches the selection (type and square checks passed) `ParseYOLOV3Output` fails with
that error exactly when `side` is not a key of the table used. -/
theorem C5_anchor_offset_selection :
    (∀ (anchorsSize : Nat) (side : Int),
      anchorOffset anchorsSize side = specAnchorOffset anchorsSize side) ∧
    (∀ (anchorsSize : Nat) (side : Int),
      anchorOffset anchorsSize side = Except.error "Invalid output size" ↔
        side ∉ (specAnchorTable anchorsSize).map Prod.fst) ∧
    (anchorOffset 18 13 = Except.ok 12 ∧ anchorOffset 18 26 = Except.ok 6 ∧
      anchorOffset 18 52 = Except.ok 0 ∧ anchorOffset 12 13 = Except.ok 6 ∧
      anchorOffset 12 26 = Except.ok 0 ∧
      anchorOffset 12 52 = Except.error "Invalid output size") ∧
    (∀ (anchorsSize : Nat) (side : Int), anchorsSize ≠ 12 →
      anchorOffset anchorsSize side = anchorOffset 18 side) ∧
    (∀ (exp : ℚ → ℚ) (labels : List String) (layer : CNNLayer) (blob : Blob)
      (resized_im_h resized_im_w original_im_h original_im_w : Nat) (threshold : ℚ)
      (objects : List DetectionObject),
      layer.type = "RegionYolo" → wrap32 (blob.h : Int) = wrap32 (blob.w : Int) →
      (ParseYOLOV3Output exp labels layer blob resized_im_h resized_im_w original_im_h
          original_im_w threshold objects = Except.error "Invalid output size" ↔
        blob.side ∉ (specAnchorTable layer.anchorList.length).map Prod.fst)) := by
  refine ⟨anchorOffset_eq_spec, anchorOffset_error_iff, ?_, ?_, ?_⟩
  · exact ⟨rfl, rfl, rfl, rfl, rfl, rfl⟩
  · intro anchorsSize side h12
    rw [anchorOffset_eq_spec, anchorOffset_eq_spec]
    simp [specAnchorOffset, specAnchorTable, h12]
  · intro exp labels layer blob rh rw oh ow threshold objects htype hsquare
    rw [ParseYOLOV3Output_of_valid exp labels layer blob rh rw oh ow threshold objects htype
      hsquare, ← anchorOffset_error_iff]
    cases anchorOffset layer.anchorList.length blob.side with
    | error e => simp
    | ok off => simp

/-- C5, witness: an anchor list of 12 entries on a 52 x 52 grid is an error. -/
theorem C5_anchor_offset_selection_witness :
    ParseYOLOV3Output expApprox ["tag"] tinyLayer grid52_blob 416 416 640 480 (3 / 10) []
      = Except.error "Invalid output size" :=
  (C5_anchor_offset_selection.2.2.2.2 expApprox ["tag"] tinyLayer grid52_blob 416 416 640 480
    (3 / 10) [] rfl rfl).mpr (by decide)

theorem Flt.lt_mono {v : Flt} {t₁ t₂ : ℚ} (h : Flt.lt v t₁) (ht : t₁ ≤ t₂) :
    Flt.lt v t₂ := by
  cases v with
  | nan => exact h
  | posInf => exact h
  | negInf => exact h
  | fin q => exact lt_of_lt_of_le (show q < t₁ from h) ht

theorem decodeClasses_length_mono (output_blob : Int → Flt) (labels : List String)
    (t₁ t₂ : ℚ) (ht : t₁ ≤ t₂) (side coords classes side_square i n : Int)
    (scale : Flt) (x y height width h_scale w_scale : ℚ) :
    (decodeClasses output_blob labels t₂ side coords classes side_square i n scale x y
        height width h_scale w_scale).length ≤
      (decodeClasses output_blob labels t₁ side coords classes side_square i n scale x y
        height width h_scale w_scale).length := by
  unfold decodeClasses
  apply length_flatMap_le
  intro j _
  dsimp only
  split_ifs with h₂ h₁ h₁
  · exact le_rfl
  · exact Nat.zero_le _
  · exact absurd (Flt.lt_mono h₁ ht) h₂
  · exact le_rfl

theorem decodeCellAnchor_length_mono (exp : ℚ → ℚ) (output_blob : Int → Flt)
    (anchors : List ℚ) (labels : List String)
    (resized_im_h resized_im_w original_im_h original_im_w : Nat) (t₁ t₂ : ℚ) (ht : t₁ ≤ t₂)
    (side coords classes anchor_offset side_square i n : Int) :
    (decodeCellAnchor exp output_blob anchors labels resized_im_h resized_im_w original_im_h
        original_im_w t₂ side coords classes anchor_offset side_square i n).length ≤
      (decodeCellAnchor exp output_blob anchors labels resized_im_h resized_im_w original_im_h
        original_im_w t₁ side coords classes anchor_offset side_square i n).length := by
  unfold decodeCellAnchor
  dsimp only
  split_ifs with h₂ h₁ h₁
  · exact le_rfl
  · exact Nat.zero_le _
  · exact absurd (Flt.lt_mono h₁ ht) h₂
  · exact decodeClasses_length_mono _ _ _ _ ht _ _ _ _ _ _ _ _ _ _ _ _ _

theorem decodeLoop_length_mono (exp : ℚ → ℚ) (output_blob : Int → Flt)
    (anchors : List ℚ) (labels : List String)
    (resized_im_h resized_im_w original_im_h original_im_w : Nat) (t₁ t₂ : ℚ) (ht : t₁ ≤ t₂)
    (side coords classes num anchor_offset : Int) :
    (decodeLoop exp output_blob anchors labels resized_im_h resized_im_w original_im_h
        original_im_w t₂ side coords classes num anchor_offset).length ≤
      (decodeLoop exp output_blob anchors labels resized_im_h resized_im_w original_im_h
        original_im_w t₁ side coords classes num anchor_offset).length := by
  unfold decodeLoop
  dsimp only
  apply length_flatMap_le
  intro i _
  apply length_flatMap_le
  intro n _
  exact decodeCellAnchor_length_mono _ _ _ _ _ _ _ _ _ _ ht _ _ _ _ _ _ _

/-- C6: raising the threshold never increases the number of detections appended.  If
decoding with threshold `t₁` succeeds and `t₁ ≤ t₂`, then decoding the same tensor with `t₂`
succeeds as well and appends at most as many detections. -/
theorem C6_decoder_threshold_monotone (exp : ℚ → ℚ) (labels : List String)
    (layer : CNNLayer) (blob : Blob)
    (resized_im_h resized_im_w original_im_h original_im_w : Nat) (t₁ t₂ : ℚ)
    (objects out₁ : List DetectionObject) (ht : t₁ ≤ t₂)
    (h₁ : ParseYOLOV3Output exp labels layer blob resized_im_h resized_im_w original_im_h
      original_im_w t₁ objects = Except.ok out₁) :
    ∃ new₁ new₂ : List DetectionObject,
      out₁ = objects ++ new₁ ∧
      ParseYOLOV3Output exp labels layer blob resized_im_h resized_im_w original_im_h
        original_im_w t₂ objects = Except.ok (objects ++ new₂) ∧
      new₂.length ≤ new₁.length := by
  by_cases htype : layer.type = "RegionYolo"
  · by_cases hsquare : wrap32 (blob.h : Int) = wrap32 (blob.w : Int)
    · rw [ParseYOLOV3Output_of_valid _ _ _ _ _ _ _ _ _ _ htype hsquare] at h₁
      rw [ParseYOLOV3Output_of_valid _ _ _ _ _ _ _ _ _ _ htype hsquare]
      cases hoff : anchorOffset layer.anchorList.length blob.side with
      | error e =>
        rw [hoff] at h₁
        cases h₁
      | ok anchor_offset =>
        rw [hoff] at h₁
        injection h₁ with h₁
        exact ⟨_, _, h₁.symm, rfl, decodeLoop_length_mono _ _ _ _ _ _ _ _ _ _ ht _ _ _ _ _⟩
    · unfold ParseYOLOV3Output at h₁
      rw [if_neg (not_not.mpr htype)] at h₁
      simp only [if_pos hsquare] at h₁
      cases h₁
  · unfold ParseYOLOV3Output at h₁
    rw [if_pos htype] at h₁
    cases h₁

/-- C6, witness: the 13 x 13 tensor decoded with thresholds 0.3 and 0.95. -/
theorem C6_decoder_threshold_monotone_witness :
    ∃ new₁ new₂ : List DetectionObject,
      ([] : List DetectionObject) ++ decodeLoop expApprox grid13_blob.buffer defaultAnchors
        ["tag"] 416 416 640 480 (3 / 10) 13 4 1 1 12 = [] ++ new₁ ∧
      ParseYOLOV3Output expApprox ["tag"] scenarioA_layer grid13_blob 416 416 640 480
        (19 / 20) [] = Except.ok ([] ++ new₂) ∧
      new₂.length ≤ new₁.length :=
  C6_decoder_threshold_monotone expApprox ["tag"] scenarioA_layer grid13_blob 416 416 640 480
    (3 / 10) (19 / 20) [] _ (by norm_num) rfl

theorem anchorOffset_ok_of_mem (anchorsSize : Nat) (side : Int)
    (h : side ∈ (specAnchorTable anchorsSize).map Prod.fst) :
    ∃ anchor_offset, anchorOffset anchorsSize side = Except.ok anchor_offset := by
  have hne := (not_congr (anchorOffset_error_iff anchorsSize side)).mpr (not_not.mpr h)
  rw [anchorOffset_eq_spec] at hne ⊢
  unfold specAnchorOffset at hne ⊢
  cases hl : (specAnchorTable anchorsSize).lookup side with
  | none => rw [hl] at hne; exact absurd rfl hne
  | some off => exact ⟨off, rfl⟩

theorem decodeCellAnchor_skip (exp : ℚ → ℚ) (output_blob : Int → Flt)
    (anchors : List ℚ) (labels : List String)
    (resized_im_h resized_im_w original_im_h original_im_w : Nat) (threshold : ℚ)
    (side coords classes anchor_offset i n : Int)
    (h : Flt.lt (objectnessAt output_blob side coords classes i n) threshold) :
    decodeCellAnchor exp output_blob anchors labels resized_im_h resized_im_w original_im_h
      original_im_w threshold side coords classes anchor_offset (imul side side) i n = [] := by
  unfold decodeCellAnchor
  unfold objectnessAt at h
  dsimp only
  rw [if_pos h]

theorem decodeCellAnchor_classes (exp : ℚ → ℚ) (output_blob : Int → Flt)
    (anchors : List ℚ) (labels : List String)
    (resized_im_h resized_im_w original_im_h original_im_w : Nat) (threshold : ℚ)
    (side coords classes anchor_offset i n : Int)
    (h : ¬ Flt.lt (objectnessAt output_blob side coords classes i n) threshold) :
    ∃ x y height width : ℚ,
      decodeCellAnchor exp output_blob anchors labels resized_im_h resized_im_w original_im_h
        original_im_w threshold side coords classes anchor_offset (imul side side) i n =
      decodeClasses output_blob labels threshold side coords classes (imul side side) i n
        (objectnessAt output_blob side coords classes i n) x y height width
        ((original_im_h : ℚ) / (resized_im_h : ℚ))
        ((original_im_w : ℚ) / (resized_im_w : ℚ)) := by
  unfold decodeCellAnchor
  unfold objectnessAt at h ⊢
  dsimp only
  rw [if_neg h]
  exact ⟨_, _, _, _, rfl⟩

theorem decodeClasses_single (output_blob : Int → Flt) (labels : List String) (threshold : ℚ)
    (side coords classes i n : Int) (scale : Flt) (x y height width h_scale w_scale : ℚ)
    (c : Int) (hc : 0 ≤ c ∧ c < classes)
    (hcls : ¬ Flt.lt (Flt.mul scale (classScoreAt output_blob side coords classes i n c))
      threshold)
    (hunique : ∀ j, 0 ≤ j → j < classes →
      ¬ Flt.lt (Flt.mul scale (classScoreAt output_blob side coords classes i n j))
        threshold → j = c) :
    decodeClasses output_blob labels threshold side coords classes (imul side side) i n scale
        x y height width h_scale w_scale =
      [DetectionObject.new x y height width c (vecAt labels c "")
        (Flt.mul scale (classScoreAt output_blob side coords classes i n c))
        h_scale w_scale] := by
  unfold decodeClasses
  rw [flatMap_eq_of_unique _ _ c (loopRange_nodup _) (mem_loopRange.mpr hc)]
  · unfold classScoreAt at hcls ⊢
    dsimp only
    rw [if_neg hcls]
  · intro j hj hne
    obtain ⟨hj0, hjc⟩ := mem_loopRange.mp hj
    unfold classScoreAt at hunique
    dsimp only
    rw [if_pos]
    by_contra hcon
    exact hne (hunique j hj0 hjc hcon)

/-- When a single (cell, anchor) pair passes the objectness test, the decode loop pushes what
the class loop pushes at that pair. -/
theorem decodeLoop_single_pair (exp : ℚ → ℚ) (output_blob : Int → Flt) (anchors : List ℚ)
    (labels : List String) (resized_im_h resized_im_w original_im_h original_im_w : Nat)
    (threshold : ℚ) (side coords classes num anchor_offset i₀ n₀ : Int)
    (hi₀ : 0 ≤ i₀ ∧ i₀ < imul side side) (hn₀ : 0 ≤ n₀ ∧ n₀ < num)
    (hobj : ¬ Flt.lt (objectnessAt output_blob side coords classes i₀ n₀) threshold)
    (hobj_unique : ∀ i n, 0 ≤ i → i < imul side side → 0 ≤ n → n < num →
      ¬ Flt.lt (objectnessAt output_blob side coords classes i n) threshold →
      i = i₀ ∧ n = n₀) :
    ∃ x y height width : ℚ,
      decodeLoop exp output_blob anchors labels resized_im_h resized_im_w original_im_h
        original_im_w threshold side coords classes num anchor_offset =
      decodeClasses output_blob labels threshold side coords classes (imul side side) i₀ n₀
        (objectnessAt output_blob side coords classes i₀ n₀) x y height width
        ((original_im_h : ℚ) / (resized_im_h : ℚ))
        ((original_im_w : ℚ) / (resized_im_w : ℚ)) := by
  obtain ⟨x, y, height, width, hcell⟩ := decodeCellAnchor_classes exp output_blob anchors
    labels resized_im_h resized_im_w original_im_h original_im_w threshold side coords classes
    anchor_offset i₀ n₀ hobj
  refine ⟨x, y, height, width, ?_⟩
  rw [← hcell]
  unfold decodeLoop
  dsimp only
  rw [flatMap_eq_of_unique _ _ i₀ (loopRange_nodup _) (mem_loopRange.mpr hi₀)]
  · rw [flatMap_eq_of_unique _ _ n₀ (loopRange_nodup _) (mem_loopRange.mpr hn₀)]
    · intro n hn hne
      obtain ⟨hn0, hnN⟩ := mem_loopRange.mp hn
      apply decodeCellAnchor_skip
      by_contra hcon
      exact hne (hobj_unique i₀ n hi₀.1 hi₀.2 hn0 hnN hcon).2
  · intro i hi hne
    obtain ⟨hi0, hiS⟩ := mem_loopRange.mp hi
    rw [List.flatMap_eq_nil_iff]
    intro n hn
    obtain ⟨hn0, hnN⟩ := mem_loopRange.mp hn
    apply decodeCellAnchor_skip
    by_contra hcon
    exact hne (hobj_unique i n hi0 hiS hn0 hnN hcon).1

/-- A (cell, anchor) pair whose objectness is NaN is not skipped by the test of line 206, and
every class passes the test of line 215: the body pushes one detection per class, each with
confidence NaN. -/
theorem decodeCellAnchor_nan (exp : ℚ → ℚ) (output_blob : Int → Flt)
    (anchors : List ℚ) (labels : List String)
    (resized_im_h resized_im_w original_im_h original_im_w : Nat) (threshold : ℚ)
    (side coords classes anchor_offset i n : Int)
    (h : objectnessAt output_blob side coords classes i n = Flt.nan) :
    ∃ x y height width : ℚ,
      decodeCellAnchor exp output_blob anchors labels resized_im_h resized_im_w original_im_h
        original_im_w threshold side coords classes anchor_offset (imul side side) i n =
      (loopRange classes).map (fun j =>
        DetectionObject.new x y height width j (vecAt labels j "") Flt.nan
          ((original_im_h : ℚ) / (resized_im_h : ℚ))
          ((original_im_w : ℚ) / (resized_im_w : ℚ))) := by
  have hpass : ¬ Flt.lt (objectnessAt output_blob side coords classes i n) threshold := by
    rw [h]
    exact fun hc => hc
  obtain ⟨x, y, height, width, hcell⟩ := decodeCellAnchor_classes exp output_blob anchors
    labels resized_im_h resized_im_w original_im_h original_im_w threshold side coords classes
    anchor_offset i n hpass
  refine ⟨x, y, height, width, ?_⟩
  rw [hcell, h]
  unfold decodeClasses
  have hmul : ∀ b : Flt, Flt.mul Flt.nan b = Flt.nan := fun b => by cases b <;> rfl
  have hnan : ¬ Flt.lt Flt.nan threshold := fun hc => hc
  simp only [hmul, if_neg hnan]
  induction loopRange classes with
  | nil => rfl
  | cons j t ih => rw [List.flatMap_cons, ih, List.map_cons, List.singleton_append]

/-- C4, counterexample: the single-cell tensor of scenario A (objectness 0.9 and class score
0.95 at cell (0,0), anchor 0, class 0; threshold 0.3; all as `float` values) has exactly one
cell, one anchor and one class, all above the threshold, yet the decoder appends nothing: it
fails with `Invalid output size`, because side 1 is not a key of the anchor-offset table. -/
theorem C4_decoder_single_cell_counterexample :
    scenarioA_blob.side = 1 ∧ scenarioA_layer.numAnchors = 1 ∧ scenarioA_layer.classes = 1 ∧
    objectnessAt scenarioA_blob.buffer 1 4 1 0 0 = Flt.fin f32_0_9 ∧
    classScoreAt scenarioA_blob.buffer 1 4 1 0 0 0 = Flt.fin f32_0_95 ∧
    f32_0_3 ≤ f32_0_9 ∧
    Flt.mul (Flt.fin f32_0_9) (Flt.fin f32_0_95) = Flt.fin (14344519 / 16777216) ∧
    f32_0_3 ≤ 14344519 / 16777216 ∧
    ParseYOLOV3Output expApprox ["tag"] scenarioA_layer scenarioA_blob 416 416 640 480
      f32_0_3 [] = Except.error "Invalid output size" := by
  have e₁ : EntryIndex 1 4 1 (iadd (imul (imul 0 1) 1) 0) 4 = 4 := by decide
  have e₂ : EntryIndex 1 4 1 (iadd (imul 0 (imul 1 1)) 0) (iadd (iadd 4 1) 0) = 5 := by decide
  refine ⟨rfl, rfl, rfl, ?_, ?_, by norm_num [f32_0_3, f32_0_9], by decide!,
    by norm_num [f32_0_3], rfl⟩
  · simp only [objectnessAt, e₁, scenarioA_blob]
    norm_num
  · simp only [classScoreAt, e₂, scenarioA_blob]
    norm_num

/-- C4, amended: on a `RegionYolo` tensor with a square grid whose side is a key of the
anchor-offset table used for the anchor list, if exactly one (cell, anchor) pair passes the
objectness test of line 206 (objectness `<` threshold is false) and at that pair exactly one
class `c` passes the test of line 215 on `prob`, the `float` product of objectness and class
score (`prob <` threshold is false), the decoder succeeds and appends exactly one detection,
with `class_id = c` and confidence `prob`. -/
theorem C4_decoder_single_detection (exp : ℚ → ℚ) (labels : List String)
    (layer : CNNLayer) (blob : Blob)
    (resized_im_h resized_im_w original_im_h original_im_w : Nat) (threshold : ℚ)
    (objects : List DetectionObject) (i₀ n₀ c : Int)
    (htype : layer.type = "RegionYolo")
    (hsquare : wrap32 (blob.h : Int) = wrap32 (blob.w : Int))
    (hside : blob.side ∈ (specAnchorTable layer.anchorList.length).map Prod.fst)
    (hi₀ : 0 ≤ i₀ ∧ i₀ < imul blob.side blob.side)
    (hn₀ : 0 ≤ n₀ ∧ n₀ < layer.numAnchors)
    (hc : 0 ≤ c ∧ c < layer.classes)
    (hobj : ¬ Flt.lt (objectnessAt blob.buffer blob.side layer.coords layer.classes i₀ n₀)
      threshold)
    (hobj_unique : ∀ i n, 0 ≤ i → i < imul blob.side blob.side → 0 ≤ n →
      n < layer.numAnchors →
      ¬ Flt.lt (objectnessAt blob.buffer blob.side layer.coords layer.classes i n) threshold →
      i = i₀ ∧ n = n₀)
    (hcls : ¬ Flt.lt
      (Flt.mul (objectnessAt blob.buffer blob.side layer.coords layer.classes i₀ n₀)
        (classScoreAt blob.buffer blob.side layer.coords layer.classes i₀ n₀ c)) threshold)
    (hcls_unique : ∀ j, 0 ≤ j → j < layer.classes →
      ¬ Flt.lt
        (Flt.mul (objectnessAt blob.buffer blob.side layer.coords layer.classes i₀ n₀)
          (classScoreAt blob.buffer blob.side layer.coords layer.classes i₀ n₀ j))
        threshold → j = c) :
    ∃ d : DetectionObject,
      ParseYOLOV3Output exp labels layer blob resized_im_h resized_im_w original_im_h
        original_im_w threshold objects = Except.ok (objects ++ [d]) ∧
      d.class_id = c ∧
      d.confidence =
        Flt.mul (objectnessAt blob.buffer blob.side layer.coords layer.classes i₀ n₀)
          (classScoreAt blob.buffer blob.side layer.coords layer.classes i₀ n₀ c) := by
  obtain ⟨anchor_offset, hoff⟩ := anchorOffset_ok_of_mem _ _ hside
  obtain ⟨x, y, height, width, hloop⟩ := decodeLoop_single_pair exp blob.buffer
    layer.anchorList labels resized_im_h resized_im_w original_im_h original_im_w threshold
    blob.side layer.coords layer.classes layer.numAnchors anchor_offset i₀ n₀ hi₀ hn₀ hobj
    hobj_unique
  rw [decodeClasses_single _ _ _ _ _ _ _ _ _ _ _ _ _ _ _ c hc hcls hcls_unique] at hloop
  refine ⟨DetectionObject.new x y height width c (vecAt labels c "")
    (Flt.mul (objectnessAt blob.buffer blob.side layer.coords layer.classes i₀ n₀)
      (classScoreAt blob.buffer blob.side layer.coords layer.classes i₀ n₀ c))
    ((original_im_h : ℚ) / (resized_im_h : ℚ)) ((original_im_w : ℚ) / (resized_im_w : ℚ)),
    ?_, rfl, rfl⟩
  rw [ParseYOLOV3Output_of_valid _ _ _ _ _ _ _ _ _ _ htype hsquare, hoff]
  dsimp only
  rw [hloop]

theorem grid13_EntryIndex (k i e : Int) (hi : 0 ≤ i) (hi' : i < 169) (he : 0 ≤ e)
    (he' : e < 100) : EntryIndex 13 4 k i e = e * 169 + i := by
  have hd : Int.tdiv i 169 = 0 := by
    rw [Int.tdiv_eq_ediv hi (by norm_num)]
    exact Int.ediv_eq_zero_of_lt hi hi'
  have hm : Int.tmod i 169 = i := by
    rw [Int.tmod_eq_emod hi (by norm_num)]
    exact Int.emod_eq_of_lt hi hi'
  have h169 : imul 13 13 = 169 := by decide
  have hz : imul (imul (wrap32 0) 13) 13 = 0 := by decide
  have hz' : ∀ x : Int, imul 0 x = 0 := by
    intro x
    simp only [imul, zero_mul]
    decide
  have hw : wrap32 i = i := wrap32_of_inInt ⟨by omega, by omega⟩
  simp only [EntryIndex, idiv, imod, h169, hd, hm, hz, hz', hw]
  simp only [iadd, imul, wrap32]
  omega

theorem grid13_objectness (i : Int) (hi : 0 ≤ i) (hi' : i < 169) :
    objectnessAt grid13_blob.buffer 13 4 1 i 0
      = if i = 0 then Flt.fin f32_0_9 else Flt.fin 0 := by
  have hloc : iadd (imul (imul 0 13) 13) i = i := by
    simp only [iadd, imul, wrap32]
    omega
  simp only [objectnessAt, hloc, grid13_EntryIndex 1 i 4 hi hi' (by norm_num) (by norm_num),
    grid13_blob]
  by_cases h0 : i = 0
  · subst h0
    norm_num
  · have h1 : ¬ (4 * 169 + i = 676) := by omega
    have h2 : ¬ (4 * 169 + i = 845) := by omega
    rw [if_neg h1, if_neg h2, if_neg h0]

theorem grid13_classScore :
    classScoreAt grid13_blob.buffer 13 4 1 0 0 0 = Flt.fin f32_0_95 := by
  have e : EntryIndex 13 4 1 (iadd (imul 0 (imul 13 13)) 0) (iadd (iadd 4 1) 0) = 845 := by
    decide
  simp only [classScoreAt, e, grid13_blob]
  norm_num

/-- The `float` product of 0.9 and 0.95 (as `float` values) is `14344519 / 2 ^ 24`, about
0.855. -/
theorem f32_product_0_9_0_95 :
    Flt.mul (Flt.fin f32_0_9) (Flt.fin f32_0_95) = Flt.fin (14344519 / 16777216) := by
  decide!

/-- The test of line 215 is made on the rounded `float` product: on `roundedProduct_blob`
with threshold 0.3 (as a `float`) the exact product `0.75 * 0.4` is below the threshold, but
the `float` product equals the threshold, and the decoder appends a detection for class 1 as
well as for class 0. -/
theorem decoder_tests_rounded_product :
    (3 / 4 : ℚ) * f32_0_4 < f32_0_3 ∧
    Flt.mul (Flt.fin (3 / 4)) (Flt.fin f32_0_4) = Flt.fin f32_0_3 ∧
    ∃ d₀ d₁ : DetectionObject,
      ParseYOLOV3Output expApprox ["first", "second"] twoClassLayer roundedProduct_blob
        416 416 640 480 f32_0_3 [] = Except.ok [d₀, d₁] ∧
      d₀.class_id = 0 ∧ d₀.confidence = Flt.fin (3 / 4) ∧
      d₁.class_id = 1 ∧ d₁.confidence = Flt.fin f32_0_3 := by
  have hm₁ : Flt.mul (Flt.fin (3 / 4)) (Flt.fin f32_0_4) = Flt.fin f32_0_3 := by decide!
  have hm₀ : Flt.mul (Flt.fin (3 / 4)) (Flt.fin 1) = Flt.fin (3 / 4) := by decide!
  refine ⟨by norm_num [f32_0_4, f32_0_3], hm₁, ?_⟩
  have hloc : ∀ i : Int, 0 ≤ i → i < 169 → iadd (imul (imul 0 13) 13) i = i := by
    intro i h0 h1
    simp only [iadd, imul, wrap32]
    omega
  have hobjAt : ∀ i : Int, 0 ≤ i → i < 169 →
      objectnessAt roundedProduct_blob.buffer 13 4 2 i 0
        = if i = 0 then Flt.fin (3 / 4) else Flt.fin 0 := by
    intro i h0 h1
    simp only [objectnessAt, hloc i h0 h1,
      grid13_EntryIndex 2 i 4 h0 h1 (by norm_num) (by norm_num), roundedProduct_blob]
    by_cases hi : i = 0
    · subst hi
      norm_num
    · have h1 : ¬ (4 * 169 + i = 676) := by omega
      have h2 : ¬ (4 * 169 + i = 845) := by omega
      have h3 : ¬ (4 * 169 + i = 1014) := by omega
      rw [if_neg h1, if_neg h2, if_neg h3, if_neg hi]
  have hobj : objectnessAt roundedProduct_blob.buffer 13 4 2 0 0 = Flt.fin (3 / 4) := by
    rw [hobjAt 0 (by norm_num) (by norm_num)]
    norm_num
  obtain ⟨x, y, height, width, hloop⟩ := decodeLoop_single_pair expApprox
    roundedProduct_blob.buffer defaultAnchors ["first", "second"] 416 416 640 480 f32_0_3
    13 4 2 1 12 0 0 (by decide) (by decide)
    (by rw [hobj]; norm_num [Flt.lt, f32_0_3])
    (by
      intro i n hi0 hi1 hn0 hn1 hthr
      have hi1' : i < 169 := hi1
      have hn : n = 0 := by omega
      subst hn
      refine ⟨?_, rfl⟩
      rw [hobjAt i hi0 hi1'] at hthr
      by_contra hne
      rw [if_neg hne] at hthr
      norm_num [Flt.lt, f32_0_3] at hthr)
  have e₀ : EntryIndex 13 4 2 (iadd (imul 0 (imul 13 13)) 0) (iadd (iadd 4 1) 0) = 845 := by
    decide
  have e₁ : EntryIndex 13 4 2 (iadd (imul 0 (imul 13 13)) 0) (iadd (iadd 4 1) 1) = 1014 := by
    decide
  have hrange : loopRange 2 = [0, 1] := by decide
  have hp₀ : ¬ Flt.lt (Flt.fin (3 / 4)) f32_0_3 := by norm_num [Flt.lt, f32_0_3]
  have hp₁ : ¬ Flt.lt (Flt.fin f32_0_3) f32_0_3 := by norm_num [Flt.lt]
  have hb₀ : roundedProduct_blob.buffer 845 = Flt.fin 1 := by
    norm_num [roundedProduct_blob]
  have hb₁ : roundedProduct_blob.buffer 1014 = Flt.fin f32_0_4 := by
    norm_num [roundedProduct_blob]
  have hparse : ParseYOLOV3Output expApprox ["first", "second"] twoClassLayer
      roundedProduct_blob 416 416 640 480 f32_0_3 []
      = Except.ok ([] ++ decodeLoop expApprox roundedProduct_blob.buffer defaultAnchors
        ["first", "second"] 416 416 640 480 f32_0_3 13 4 2 1 12) := rfl
  rw [hparse, hloop, hobj]
  simp only [decodeClasses, hrange, List.flatMap_cons, List.flatMap_nil, e₀, e₁, hb₀, hb₁,
    hm₀, hm₁, if_neg hp₀, if_neg hp₁, List.nil_append, List.append_nil,
    List.singleton_append]
  exact ⟨_, _, rfl, rfl, rfl, rfl, rfl⟩

/-- C4, witness: the values of scenario A on a 13 x 13 grid give one detection of class 0
whose confidence is the `float` product of 0.9 and 0.95. -/
theorem C4_decoder_single_detection_witness :
    objectnessAt grid13_blob.buffer 13 4 1 0 0 = Flt.fin f32_0_9 ∧
    classScoreAt grid13_blob.buffer 13 4 1 0 0 0 = Flt.fin f32_0_95 ∧
    ∃ d : DetectionObject,
      ParseYOLOV3Output expApprox ["tag"] scenarioA_layer grid13_blob 416 416 640 480
        f32_0_3 [] = Except.ok ([] ++ [d]) ∧
      d.class_id = 0 ∧
      d.confidence = Flt.mul (objectnessAt grid13_blob.buffer 13 4 1 0 0)
        (classScoreAt grid13_blob.buffer 13 4 1 0 0 0) := by
  have hobj : objectnessAt grid13_blob.buffer 13 4 1 0 0 = Flt.fin f32_0_9 := by
    rw [grid13_objectness 0 (by norm_num) (by norm_num)]
    norm_num
  refine ⟨hobj, grid13_classScore, ?_⟩
  refine C4_decoder_single_detection expApprox ["tag"] scenarioA_layer grid13_blob 416 416
    640 480 f32_0_3 [] 0 0 0 rfl rfl (by decide) (by decide) (by decide) (by decide)
    ?_ ?_ ?_ ?_
  · show ¬ Flt.lt (objectnessAt grid13_blob.buffer 13 4 1 0 0) f32_0_3
    rw [hobj]
    norm_num [Flt.lt, f32_0_3, f32_0_9]
  · intro i n hi0 hi1 hn0 hn1 hthr
    have hi1' : i < 169 := hi1
    have hn1' : n < 1 := hn1
    have hn : n = 0 := by omega
    subst hn
    refine ⟨?_, rfl⟩
    have hthr' : ¬ Flt.lt (objectnessAt grid13_blob.buffer 13 4 1 i 0) f32_0_3 := hthr
    rw [grid13_objectness i hi0 hi1'] at hthr'
    by_contra hne
    rw [if_neg hne] at hthr'
    norm_num [Flt.lt, f32_0_3] at hthr'
  · show ¬ Flt.lt (Flt.mul (objectnessAt grid13_blob.buffer 13 4 1 0 0)
      (classScoreAt grid13_blob.buffer 13 4 1 0 0 0)) f32_0_3
    rw [hobj, grid13_classScore, f32_product_0_9_0_95]
    norm_num [Flt.lt, f32_0_3]
  · intro j hj0 hj1 _
    have hj1' : j < 1 := hj1
    omega

/-- C2: for `side >= 1`, `coords >= 0`, `classes >= 0`, `num_anchors >= 1` and valid
`(location, entry)` pairs on which no `int` operation of `EntryIndex` overflows, the offset
lies in `[0, num_anchors * (coords + 1 + classes) * side * side)`, and two different valid
pairs never get the same offset. -/
theorem C2_EntryIndex_range_and_injective (side coords classes num_anchors : Int)
    (location₁ entry₁ location₂ entry₂ : Int)
    (hside : 1 ≤ side) (hcoords : 0 ≤ coords) (hclasses : 0 ≤ classes)
    (_hnum : 1 ≤ num_anchors)
    (hloc₁ : 0 ≤ location₁ ∧ location₁ < num_anchors * side * side)
    (hent₁ : 0 ≤ entry₁ ∧ entry₁ < coords + 1 + classes)
    (hloc₂ : 0 ≤ location₂ ∧ location₂ < num_anchors * side * side)
    (hent₂ : 0 ≤ entry₂ ∧ entry₂ < coords + 1 + classes)
    (h₁ : EntryIndexNoOverflow side coords classes location₁ entry₁)
    (h₂ : EntryIndexNoOverflow side coords classes location₂ entry₂) :
    (0 ≤ EntryIndex side coords classes location₁ entry₁ ∧
      EntryIndex side coords classes location₁ entry₁
        < num_anchors * (coords + 1 + classes) * side * side) ∧
    ((location₁, entry₁) ≠ (location₂, entry₂) →
      EntryIndex side coords classes location₁ entry₁
        ≠ EntryIndex side coords classes location₂ entry₂) := by
  refine ⟨EntryIndex_range hside hcoords hclasses hloc₁.1 hloc₁.2 hent₁.1 hent₁.2 h₁, ?_⟩
  intro hne heq
  obtain ⟨hl, he⟩ := EntryIndex_injective hside hloc₁.1 hent₁.1 hent₁.2 hloc₂.1 hent₂.1
    hent₂.2 h₁ h₂ heq
  exact hne (by rw [hl, he])

/-- C2, witness: a 13 x 13 grid with 3 anchors, 4 coordinates and 80 classes. -/
theorem C2_EntryIndex_range_and_injective_witness :
    (0 ≤ EntryIndex 13 4 80 (2 * 169 + 5) 84 ∧
      EntryIndex 13 4 80 (2 * 169 + 5) 84 < 3 * (4 + 1 + 80) * 13 * 13) ∧
    (((2 * 169 + 5 : Int), (84 : Int)) ≠ ((1 * 169 + 5 : Int), (4 : Int)) →
      EntryIndex 13 4 80 (2 * 169 + 5) 84 ≠ EntryIndex 13 4 80 (1 * 169 + 5) 4) :=
  C2_EntryIndex_range_and_injective 13 4 80 3 (2 * 169 + 5) 84 (1 * 169 + 5) 4
    (by decide) (by decide) (by decide) (by decide) (by decide) (by decide) (by decide)
    (by decide) (by decide) (by decide)

end YoloRosVino
